import Mathlib

/-! # Fawry e-commerce checkout (`src/Fawry.cpp`)

A shallow embedding of the classes `Product`, `CartItem`, `Customer`,
`ShippingService` and `ShoppingCart`, followed by theorems about `addItem`
and `checkout`.

Modelling conventions

* `double` values (prices, weights, balances, the shipping fee) are exact
  rationals `ℚ`; `int` values (stock, quantity) and `time_t` values are `Int`.
  The section `Ieee` repeats the money path of `checkout` over doubles with
  their infinities and NaN.
* An `int` result is taken in the 32-bit range: `wrapInt` for arithmetic,
  `truncToInt` for the conversion from `double`.
* `time(0)` is an explicit parameter `now`, read once per `checkout`.
* `void` member functions that write to a member return the new object;
  what they print to `cout` is returned as data next to it.
-/

namespace Fawry

/-! ## The type `int` -/

/-- The least value of the 32-bit `int`. -/
def INT_MIN : Int := -2147483648

/-- The greatest value of the 32-bit `int`. -/
def INT_MAX : Int := 2147483647

/-- The `int` left by an arithmetic operation whose exact result is `n`: `n`
itself when it is in range, otherwise `n` reduced modulo 2^32 into the range
(signed overflow is undefined in C++; this is the two's-complement result). -/
def wrapInt (n : Int) : Int :=
  (n - INT_MIN) % 4294967296 + INT_MIN

/-! ## Product -/

/-- The class `Product` (lines 23-69): the seven data members. -/
structure Product where
  name : String
  price : ℚ
  stock : Int
  expirable : Bool
  shippable : Bool
  expiryDate : Int
  weight : ℚ
deriving DecidableEq

/-- Method `Product::isExpired` (lines 56-60): `false` for a product that is not
expirable, otherwise `difftime(expiryDate, now) < 0`. -/
def Product.isExpired (p : Product) (now : Int) : Bool :=
  if !p.expirable then false
  else decide (p.expiryDate - now < 0)

/-- Method `Product::reduceStock` (lines 65-68). -/
def Product.reduceStock (p : Product) (quantity : Int) : Product :=
  let stock := wrapInt (p.stock - quantity)
  { p with stock := if stock < 0 then 0 else stock }

/-! ## CartItem -/

/-- The class `CartItem` (lines 78-106): a copy of a product and a
quantity. -/
structure CartItem where
  product : Product
  quantity : Int
deriving DecidableEq

/-- Method `CartItem::getTotalPrice` (lines 91-93). -/
def CartItem.getTotalPrice (item : CartItem) : ℚ :=
  item.product.price * (item.quantity : ℚ)

/-- Method `CartItem::isShippable` (lines 95-97). -/
def CartItem.isShippable (item : CartItem) : Bool :=
  item.product.shippable

/-- Method `CartItem::getTotalWeight` (lines 99-101). -/
def CartItem.getTotalWeight (item : CartItem) : ℚ :=
  item.product.weight * (item.quantity : ℚ)

/-- Method `CartItem::isExpired` (lines 103-105). -/
def CartItem.isExpired (item : CartItem) (now : Int) : Bool :=
  item.product.isExpired now

/-! ## Customer -/

/-- The class `Customer` (lines 108-130). -/
structure Customer where
  name : String
  balance : ℚ
deriving DecidableEq

/-- Method `Customer::availableBalance` (lines 123-125). -/
def Customer.availableBalance (c : Customer) (amount : ℚ) : Bool :=
  decide (c.balance ≥ amount)

/-- Method `Customer::pay` (lines 127-129), on finite values; the same
method on infinities and NaN is `Ieee.Customer.pay`. -/
def Customer.pay (c : Customer) (amount : ℚ) : Customer :=
  { c with balance := c.balance - amount }

/-! ## ShippingService -/

/-- The conversion `static_cast<int>(x)` of a `double`: truncation toward
zero when the truncated value is in the range of `int`. Outside the range
the conversion is undefined in C++; the model returns `INT_MIN`, which is
what the conversion instruction of x86-64 delivers. -/
def truncToInt (x : ℚ) : Int :=
  let t := Int.tdiv x.num (x.den : Int)
  if INT_MIN ≤ t ∧ t ≤ INT_MAX then t else INT_MIN

/-- One line `<quantity>x <name> <grams>g` of the shipment notice
(line 140). -/
structure ShipEntry where
  quantity : Int
  name : String
  grams : Int
deriving DecidableEq

/-- What `ShippingService::shipItems` prints: the entry lines in the order
they are printed, and the value of `totalWeight` printed last
(line 147). -/
structure Manifest where
  entries : List ShipEntry
  totalWeight : ℚ
deriving DecidableEq

/-- The `for` loop of `shipItems` (lines 138-144), threading the lines
printed so far and the accumulator `totalWeight`. -/
def shipItemsLoop : List CartItem → Manifest → Manifest
  | [], m => m
  | item :: rest, m =>
    if item.isShippable then
      shipItemsLoop rest
        { entries := m.entries ++
            [⟨item.quantity, item.product.name, truncToInt (item.product.weight * 1000)⟩]
          totalWeight := m.totalWeight + item.getTotalWeight }
    else shipItemsLoop rest m

/-- Method `ShippingService::shipItems` (lines 134-148). -/
def shipItems (items : List CartItem) : Manifest :=
  shipItemsLoop items { entries := [], totalWeight := 0 }

/-! ## ShoppingCart -/

/-- The class `ShoppingCart` (lines 151-214). A default-constructed cart has
no items and an indeterminate `shippingFee`. -/
structure ShoppingCart where
  items : List CartItem
  shippingFee : ℚ
deriving DecidableEq

/-- Method `ShoppingCart::addItem` (lines 157-162). The second component is the
product name of the message `Invalid quantity for <name>` when the call is
rejected. The product is taken by `const` reference and copied into the new
line. -/
def ShoppingCart.addItem (cart : ShoppingCart) (product : Product) (quantity : Int) :
    ShoppingCart × Option String :=
  if quantity ≤ 0 ∨ quantity > product.stock then
    (cart, some product.name)
  else
    ({ cart with items := cart.items ++ [⟨product, quantity⟩] }, none)

/-- Method `ShoppingCart::addShippingFee` (lines 163-165). -/
def ShoppingCart.addShippingFee (cart : ShoppingCart) (fee : ℚ) : ShoppingCart :=
  { cart with shippingFee := fee }

/-- The early returns of `checkout`, each with the data at hand there.
`emptyCart` is line 169, `expiredItem` line 178 (the name is printed),
`insufficientStock` line 181 (stock and name are printed) and
`insufficientFunds` line 193, whose message prints no number: the
constructor records the values of `total` and of the customer's balance at
that return. -/
inductive Failure where
  | emptyCart
  | expiredItem (name : String)
  | insufficientStock (name : String) (available : Int)
  | insufficientFunds (total balance : ℚ)
deriving DecidableEq

/-- How a call of `checkout` ends: at one of the early returns, or at the
end of the function with the values of `subtotal`,
`needsShipping ? shippingFee : 0` and `total`. -/
inductive Outcome where
  | failure (f : Failure)
  | success (subtotal shippingCharged total : ℚ)
deriving DecidableEq

/-- The outcome is the one of a completed checkout. -/
def Outcome.isSuccess : Outcome → Bool
  | .failure _ => false
  | .success _ _ _ => true

/-- The locals `subtotal`, `needsShipping` and `shippableItems` of
`checkout` (lines 172-174). -/
structure LoopState where
  subtotal : ℚ
  needsShipping : Bool
  shippableItems : List CartItem
deriving DecidableEq

/-- The validation loop of `checkout` (lines 176-189). -/
def checkoutLoop (now : Int) : List CartItem → LoopState → Except Failure LoopState
  | [], st => .ok st
  | item :: rest, st =>
    if item.isExpired now then
      .error (.expiredItem item.product.name)
    else if item.quantity > item.product.stock then
      .error (.insufficientStock item.product.name item.product.stock)
    else
      let subtotal := st.subtotal + item.getTotalPrice
      if item.isShippable then
        checkoutLoop now rest
          { subtotal := subtotal
            needsShipping := true
            shippableItems := st.shippableItems ++ [item] }
      else
        checkoutLoop now rest { st with subtotal := subtotal }

/-- The receipt printed by a completed checkout (lines 203-212): one
`(quantity, name, static_cast<int>(total price))` per item, then the four
amounts, each through `static_cast<int>`. -/
structure Receipt where
  entries : List (Int × String × Int)
  subtotal : Int
  shipping : Int
  amount : Int
  balance : Int
deriving DecidableEq

/-- The state after a call of `checkout` and what the call printed. -/
structure CheckoutResult where
  cart : ShoppingCart
  customer : Customer
  shipment : Option Manifest
  receipt : Option Receipt
  outcome : Outcome
deriving DecidableEq

/-- Method `ShoppingCart::checkout` (lines 167-213). -/
def ShoppingCart.checkout (cart : ShoppingCart) (customer : Customer) (now : Int) :
    CheckoutResult :=
  if cart.items.isEmpty then
    ⟨cart, customer, none, none, .failure .emptyCart⟩
  else
    match checkoutLoop now cart.items ⟨0, false, []⟩ with
    | .error f => ⟨cart, customer, none, none, .failure f⟩
    | .ok st =>
      let shippingCharged : ℚ := if st.needsShipping then cart.shippingFee else 0
      let total := st.subtotal + shippingCharged
      if !customer.availableBalance total then
        ⟨cart, customer, none, none, .failure (.insufficientFunds total customer.balance)⟩
      else
        let shipment := if st.needsShipping then some (shipItems st.shippableItems) else none
        let customer := customer.pay total
        let receipt : Receipt :=
          { entries := cart.items.map fun item =>
              (item.quantity, item.product.name, truncToInt item.getTotalPrice)
            subtotal := truncToInt st.subtotal
            shipping := truncToInt shippingCharged
            amount := truncToInt total
            balance := truncToInt customer.balance }
        ⟨cart, customer, shipment, some receipt, .success st.subtotal shippingCharged total⟩

/-- The carts a program can hold: a default-constructed cart, changed only
through the public members `addItem` and `addShippingFee`. -/
inductive ShoppingCart.Built : ShoppingCart → Prop where
  | init (fee : ℚ) : ShoppingCart.Built ⟨[], fee⟩
  | addItem {cart : ShoppingCart} (product : Product) (quantity : Int) :
      ShoppingCart.Built cart → ShoppingCart.Built (cart.addItem product quantity).1
  | addShippingFee {cart : ShoppingCart} (fee : ℚ) :
      ShoppingCart.Built cart → ShoppingCart.Built (cart.addShippingFee fee)

/-! ## Doubles with infinities and NaN

The classes once more, with every `double` member a `Dbl`, for the claims
that depend on the values a `double` has beyond the finite ones. -/

/-- A value of the type `double`: a finite value, plus or minus infinity, or
NaN. A finite value is kept as the exact rational: rounding inside the
finite range is not modelled, overflow is (`Dbl.ofRat`). The two zeros are
not told apart. -/
inductive Dbl where
  | fin (q : ℚ)
  | pinf
  | ninf
  | nan
deriving DecidableEq

/-- The magnitude from which an exact result rounds to an infinity:
2^1024 - 2^970, half a unit in the last place above the greatest finite
`double`. -/
def Dbl.overflowBound : ℚ := 2 ^ 1024 - 2 ^ 970

/-- The `double` delivered for an exact result `q`. -/
def Dbl.ofRat (q : ℚ) : Dbl :=
  if Dbl.overflowBound ≤ q then .pinf
  else if q ≤ -Dbl.overflowBound then .ninf
  else .fin q

/-- Negation of a `double`. -/
def Dbl.neg : Dbl → Dbl
  | .fin q => .fin (-q)
  | .pinf => .ninf
  | .ninf => .pinf
  | .nan => .nan

/-- The operator `+` on `double`, by IEEE 754. -/
def Dbl.add : Dbl → Dbl → Dbl
  | .fin a, .fin b => Dbl.ofRat (a + b)
  | .fin _, .pinf => .pinf
  | .fin _, .ninf => .ninf
  | .pinf, .fin _ => .pinf
  | .pinf, .pinf => .pinf
  | .pinf, .ninf => .nan
  | .ninf, .fin _ => .ninf
  | .ninf, .pinf => .nan
  | .ninf, .ninf => .ninf
  | .nan, _ => .nan
  | _, .nan => .nan

/-- The operator `-` on `double`: `a - b` is `a + (-b)`. -/
def Dbl.sub (a b : Dbl) : Dbl :=
  a.add b.neg

/-- The operator `*` on `double`, by IEEE 754. -/
def Dbl.mul : Dbl → Dbl → Dbl
  | .fin a, .fin b => Dbl.ofRat (a * b)
  | .fin a, .pinf => if 0 < a then .pinf else if a < 0 then .ninf else .nan
  | .fin a, .ninf => if 0 < a then .ninf else if a < 0 then .pinf else .nan
  | .pinf, .fin b => if 0 < b then .pinf else if b < 0 then .ninf else .nan
  | .ninf, .fin b => if 0 < b then .ninf else if b < 0 then .pinf else .nan
  | .pinf, .pinf => .pinf
  | .pinf, .ninf => .ninf
  | .ninf, .pinf => .ninf
  | .ninf, .ninf => .pinf
  | .nan, _ => .nan
  | _, .nan => .nan

/-- The operator `>=` on `double`: false as soon as one side is NaN. -/
def Dbl.ge : Dbl → Dbl → Bool
  | .fin a, .fin b => decide (a ≥ b)
  | .fin _, .pinf => false
  | .fin _, .ninf => true
  | .pinf, .fin _ => true
  | .pinf, .pinf => true
  | .pinf, .ninf => true
  | .ninf, .fin _ => false
  | .ninf, .pinf => false
  | .ninf, .ninf => true
  | .nan, _ => false
  | _, .nan => false

/-- The conversion `static_cast<int>(x)` of a `double` that may be an
infinity or NaN; for those the conversion is undefined and the model
returns `INT_MIN`, as `truncToInt` does out of range. -/
def Dbl.truncToInt : Dbl → Int
  | .fin q => Fawry.truncToInt q
  | .pinf => INT_MIN
  | .ninf => INT_MIN
  | .nan => INT_MIN

namespace Ieee

/-- The class `Product` (lines 23-69). -/
structure Product where
  name : String
  price : Dbl
  stock : Int
  expirable : Bool
  shippable : Bool
  expiryDate : Int
  weight : Dbl
deriving DecidableEq

/-- Method `Product::isExpired` (lines 56-60). -/
def Product.isExpired (p : Product) (now : Int) : Bool :=
  if !p.expirable then false
  else decide (p.expiryDate - now < 0)

/-- The class `CartItem` (lines 78-106). -/
structure CartItem where
  product : Product
  quantity : Int
deriving DecidableEq

/-- Method `CartItem::getTotalPrice` (lines 91-93); the `int` quantity
converts to `double` exactly. -/
def CartItem.getTotalPrice (item : CartItem) : Dbl :=
  item.product.price.mul (.fin (item.quantity : ℚ))

/-- Method `CartItem::isShippable` (lines 95-97). -/
def CartItem.isShippable (item : CartItem) : Bool :=
  item.product.shippable

/-- Method `CartItem::getTotalWeight` (lines 99-101). -/
def CartItem.getTotalWeight (item : CartItem) : Dbl :=
  item.product.weight.mul (.fin (item.quantity : ℚ))

/-- Method `CartItem::isExpired` (lines 103-105). -/
def CartItem.isExpired (item : CartItem) (now : Int) : Bool :=
  item.product.isExpired now

/-- The class `Customer` (lines 108-130). -/
structure Customer where
  name : String
  balance : Dbl
deriving DecidableEq

/-- Method `Customer::availableBalance` (lines 123-125). -/
def Customer.availableBalance (c : Customer) (amount : Dbl) : Bool :=
  c.balance.ge amount

/-- Method `Customer::pay` (lines 127-129). -/
def Customer.pay (c : Customer) (amount : Dbl) : Customer :=
  { c with balance := c.balance.sub amount }

/-- What `ShippingService::shipItems` prints. -/
structure Manifest where
  entries : List ShipEntry
  totalWeight : Dbl
deriving DecidableEq

/-- The `for` loop of `shipItems` (lines 138-144). -/
def shipItemsLoop : List CartItem → Manifest → Manifest
  | [], m => m
  | item :: rest, m =>
    if item.isShippable then
      shipItemsLoop rest
        { entries := m.entries ++
            [⟨item.quantity, item.product.name,
              (item.product.weight.mul (.fin 1000)).truncToInt⟩]
          totalWeight := m.totalWeight.add item.getTotalWeight }
    else shipItemsLoop rest m

/-- Method `ShippingService::shipItems` (lines 134-148). -/
def shipItems (items : List CartItem) : Manifest :=
  shipItemsLoop items { entries := [], totalWeight := .fin 0 }

/-- The class `ShoppingCart` (lines 151-214). -/
structure ShoppingCart where
  items : List CartItem
  shippingFee : Dbl
deriving DecidableEq

/-- Method `ShoppingCart::addItem` (lines 157-162). -/
def ShoppingCart.addItem (cart : ShoppingCart) (product : Product) (quantity : Int) :
    ShoppingCart × Option String :=
  if quantity ≤ 0 ∨ quantity > product.stock then
    (cart, some product.name)
  else
    ({ cart with items := cart.items ++ [⟨product, quantity⟩] }, none)

/-- Method `ShoppingCart::addShippingFee` (lines 163-165). -/
def ShoppingCart.addShippingFee (cart : ShoppingCart) (fee : Dbl) : ShoppingCart :=
  { cart with shippingFee := fee }

/-- The early returns of `checkout`, as in `Fawry.Failure`. -/
inductive Failure where
  | emptyCart
  | expiredItem (name : String)
  | insufficientStock (name : String) (available : Int)
  | insufficientFunds (total balance : Dbl)
deriving DecidableEq

/-- How a call of `checkout` ends, as in `Fawry.Outcome`. -/
inductive Outcome where
  | failure (f : Failure)
  | success (subtotal shippingCharged total : Dbl)
deriving DecidableEq

/-- The locals `subtotal`, `needsShipping` and `shippableItems` of
`checkout` (lines 172-174). -/
structure LoopState where
  subtotal : Dbl
  needsShipping : Bool
  shippableItems : List CartItem
deriving DecidableEq

/-- The validation loop of `checkout` (lines 176-189). -/
def checkoutLoop (now : Int) : List CartItem → LoopState → Except Failure LoopState
  | [], st => .ok st
  | item :: rest, st =>
    if item.isExpired now then
      .error (.expiredItem item.product.name)
    else if item.quantity > item.product.stock then
      .error (.insufficientStock item.product.name item.product.stock)
    else
      let subtotal := st.subtotal.add item.getTotalPrice
      if item.isShippable then
        checkoutLoop now rest
          { subtotal := subtotal
            needsShipping := true
            shippableItems := st.shippableItems ++ [item] }
      else
        checkoutLoop now rest { st with subtotal := subtotal }

/-- The state after a call of `checkout` and what the call printed. -/
structure CheckoutResult where
  cart : ShoppingCart
  customer : Customer
  shipment : Option Manifest
  receipt : Option Receipt
  outcome : Outcome
deriving DecidableEq

/-- Method `ShoppingCart::checkout` (lines 167-213). -/
def ShoppingCart.checkout (cart : ShoppingCart) (customer : Customer) (now : Int) :
    CheckoutResult :=
  if cart.items.isEmpty then
    ⟨cart, customer, none, none, .failure .emptyCart⟩
  else
    match checkoutLoop now cart.items ⟨.fin 0, false, []⟩ with
    | .error f => ⟨cart, customer, none, none, .failure f⟩
    | .ok st =>
      let shippingCharged : Dbl := if st.needsShipping then cart.shippingFee else .fin 0
      let total := st.subtotal.add shippingCharged
      if !customer.availableBalance total then
        ⟨cart, customer, none, none, .failure (.insufficientFunds total customer.balance)⟩
      else
        let shipment := if st.needsShipping then some (shipItems st.shippableItems) else none
        let customer := customer.pay total
        let receipt : Receipt :=
          { entries := cart.items.map fun item =>
              (item.quantity, item.product.name, item.getTotalPrice.truncToInt)
            subtotal := st.subtotal.truncToInt
            shipping := shippingCharged.truncToInt
            amount := total.truncToInt
            balance := customer.balance.truncToInt }
        ⟨cart, customer, shipment, some receipt, .success st.subtotal shippingCharged total⟩

/-- A product priced 10^308, stock 200, not shippable. -/
def itemP : Product := ⟨"P", .fin (10 ^ 308), 200, false, false, 0, .fin 0⟩

/-- A cart with shipping fee 50 holding 100 of `itemP`. -/
def overflowCart : ShoppingCart :=
  (((⟨[], .fin 0⟩ : ShoppingCart).addShippingFee (.fin 50)).addItem itemP 100).1

/-- A product with a negative price: price -10, stock 5. -/
def itemR : Product := ⟨"R", .fin (-10), 5, false, false, 0, .fin 0⟩

/-- A cart with shipping fee 50 holding one unit of `itemR`. -/
def refundCart : ShoppingCart :=
  (((⟨[], .fin 0⟩ : ShoppingCart).addShippingFee (.fin 50)).addItem itemR 1).1

end Ieee

/-! ## Sample data -/

/-- A shippable product: price 100, stock 10, weight 0.2 kg. -/
def itemA : Product := ⟨"A", 100, 10, false, true, 0, 1 / 5⟩

/-- A product that is not shippable: price 50, stock 20. -/
def itemB : Product := ⟨"B", 50, 20, false, false, 0, 0⟩

/-- A perishable product whose expiry date is 100. -/
def itemC : Product := ⟨"C", 30, 5, true, false, 100, 0⟩

/-- The cart with shipping fee 50 holding 2 of `itemA` and 3 of `itemB`. -/
def scenarioCart : ShoppingCart :=
  ((((⟨[], 0⟩ : ShoppingCart).addShippingFee 50).addItem itemA 2).1.addItem itemB 3).1

/-- The scenario cart with one unit of the perishable `itemC` added between
the two lines. -/
def perishableCart : ShoppingCart :=
  (((((⟨[], 0⟩ : ShoppingCart).addShippingFee 50).addItem itemA 2).1.addItem itemC 1).1.addItem
    itemB 3).1

/-- A cart with shipping fee 0 holding one unit of the shippable `itemA`. -/
def freeShippingCart : ShoppingCart :=
  (((⟨[], 0⟩ : ShoppingCart).addShippingFee 0).addItem itemA 1).1

/-- A cart with shipping fee 50 and two shippable lines, 2 and 1 of
`itemA`. -/
def twoShippableCart : ShoppingCart :=
  ((((⟨[], 0⟩ : ShoppingCart).addShippingFee 50).addItem itemA 2).1.addItem itemA 1).1

/-- A cart with shipping fee 50 holding 5 of `itemA`, added while the stock
of `itemA` is 10. -/
def fiveOfACart : ShoppingCart :=
  (((⟨[], 0⟩ : ShoppingCart).addShippingFee 50).addItem itemA 5).1

/-- A cart with shipping fee 50 to which `itemA` (stock 10) is added twice,
6 units and then 7 units. -/
def duplicateCart : ShoppingCart :=
  ((((⟨[], 0⟩ : ShoppingCart).addShippingFee 50).addItem itemA 6).1.addItem itemA 7).1

/-- When every line passes both checks the loop runs to the end: the
subtotal grows by the sum of the line totals, the flag is set when some line
is shippable and the shippable lines are collected in order. -/
theorem checkoutLoop_ok (now : Int) (items : List CartItem) (st : LoopState)
    (h : ∀ x ∈ items, x.isExpired now = false ∧ x.quantity ≤ x.product.stock) :
    checkoutLoop now items st = .ok
      { subtotal := st.subtotal + (items.map CartItem.getTotalPrice).sum
        needsShipping := st.needsShipping || items.any CartItem.isShippable
        shippableItems := st.shippableItems ++ items.filter CartItem.isShippable } := by
  induction items generalizing st with
  | nil => simp [checkoutLoop]
  | cons item rest ih =>
    have hi := h item (List.mem_cons_self _ _)
    have hrest : ∀ x ∈ rest, x.isExpired now = false ∧ x.quantity ≤ x.product.stock :=
      fun x hx => h x (List.mem_cons_of_mem _ hx)
    have hq : ¬ item.quantity > item.product.stock := not_lt.mpr hi.2
    cases hs : item.isShippable
    · simp [checkoutLoop, hi.1, hq, hs, ih _ hrest, add_assoc]
    · simp [checkoutLoop, hi.1, hq, hs, ih _ hrest, add_assoc]

/-- The loop stops at the first line that fails a check, with the failure
of that line; expiry is tested first. -/
theorem checkoutLoop_error (now : Int) (pre : List CartItem) (l : CartItem)
    (post : List CartItem) (st : LoopState)
    (hpre : ∀ x ∈ pre, x.isExpired now = false ∧ x.quantity ≤ x.product.stock)
    (hl : l.isExpired now = true ∨ l.quantity > l.product.stock) :
    checkoutLoop now (pre ++ l :: post) st = .error
      (if l.isExpired now then .expiredItem l.product.name
       else .insufficientStock l.product.name l.product.stock) := by
  induction pre generalizing st with
  | nil =>
    rcases hl with hl | hl
    · simp [checkoutLoop, hl]
    · cases he : l.isExpired now <;> simp [checkoutLoop, he, hl]
  | cons item rest ih =>
    have hi := hpre item (List.mem_cons_self _ _)
    have hrest : ∀ x ∈ rest, x.isExpired now = false ∧ x.quantity ≤ x.product.stock :=
      fun x hx => hpre x (List.mem_cons_of_mem _ hx)
    have hq : ¬ item.quantity > item.product.stock := not_lt.mpr hi.2
    cases hs : item.isShippable
    · simp [checkoutLoop, hi.1, hq, hs, ih _ hrest]
    · simp [checkoutLoop, hi.1, hq, hs, ih _ hrest]

/-- Either every line passes both checks, or the list splits at a first
line that fails one. -/
theorem all_pass_or_first_offender (now : Int) (items : List CartItem) :
    (∀ x ∈ items, x.isExpired now = false ∧ x.quantity ≤ x.product.stock) ∨
    ∃ pre l post, items = pre ++ l :: post ∧
      (∀ x ∈ pre, x.isExpired now = false ∧ x.quantity ≤ x.product.stock) ∧
      (l.isExpired now = true ∨ l.quantity > l.product.stock) := by
  induction items with
  | nil => left; simp
  | cons item rest ih =>
    by_cases hi : item.isExpired now = false ∧ item.quantity ≤ item.product.stock
    · rcases ih with ih | ⟨pre, l, post, he, hp, hl⟩
      · left
        intro x hx
        rcases List.mem_cons.mp hx with rfl | hx
        · exact hi
        · exact ih x hx
      · right
        refine ⟨item :: pre, l, post, by simp [he], ?_, hl⟩
        intro x hx
        rcases List.mem_cons.mp hx with rfl | hx
        · exact hi
        · exact hp x hx
    · right
      refine ⟨[], item, rest, rfl, by simp, ?_⟩
      by_cases he : item.isExpired now = true
      · exact Or.inl he
      · right
        have he' : item.isExpired now = false := by simpa using he
        exact not_le.mp (fun hle => hi ⟨he', hle⟩)

/-- A loop that runs to the end has seen only lines that pass both
checks. -/
theorem checkoutLoop_ok_pass (now : Int) (items : List CartItem) (st st' : LoopState)
    (h : checkoutLoop now items st = .ok st') :
    ∀ x ∈ items, x.isExpired now = false ∧ x.quantity ≤ x.product.stock := by
  rcases all_pass_or_first_offender now items with hall | ⟨pre, l, post, he, hp, hl⟩
  · exact hall
  · rw [he, checkoutLoop_error now pre l post st hp hl] at h
    cases h

/-- The result of `checkout` on a cart whose lines all pass: the funds test
decides. -/
theorem checkout_of_pass (cart : ShoppingCart) (customer : Customer) (now : Int)
    (hne : cart.items ≠ [])
    (h : ∀ x ∈ cart.items, x.isExpired now = false ∧ x.quantity ≤ x.product.stock) :
    let shippingCharged : ℚ :=
      if cart.items.any CartItem.isShippable then cart.shippingFee else 0
    let subtotal := (cart.items.map CartItem.getTotalPrice).sum
    let total := subtotal + shippingCharged
    (customer.balance < total →
      cart.checkout customer now =
        ⟨cart, customer, none, none,
          .failure (.insufficientFunds total customer.balance)⟩) ∧
    (total ≤ customer.balance →
      (cart.checkout customer now).cart = cart ∧
      (cart.checkout customer now).customer = customer.pay total ∧
      (cart.checkout customer now).shipment =
        (if cart.items.any CartItem.isShippable then
          some (shipItems (cart.items.filter CartItem.isShippable)) else none) ∧
      (cart.checkout customer now).outcome = .success subtotal shippingCharged total) := by
  intro shippingCharged subtotal total
  have hloop := checkoutLoop_ok now cart.items ⟨0, false, []⟩ h
  have hemp : cart.items.isEmpty = false := by
    cases hi : cart.items with
    | nil => exact absurd hi hne
    | cons a b => rfl
  simp only [zero_add, Bool.false_or, List.nil_append] at hloop
  constructor
  · intro hlt
    have : ¬ customer.balance ≥ total := not_le.mpr hlt
    simp only [ShoppingCart.checkout, hemp, hloop, Customer.availableBalance]
    simp [total, subtotal, shippingCharged] at this ⊢
    exact this
  · intro hle
    have : customer.balance ≥ total := hle
    simp only [ShoppingCart.checkout, hemp, hloop, Customer.availableBalance]
    simp [total, subtotal, shippingCharged] at this ⊢
    have hn := not_lt.mpr this
    simp [hn]

/-- A cart without lines: `checkout` returns at line 169 and changes
nothing. -/
theorem checkout_of_empty (cart : ShoppingCart) (customer : Customer) (now : Int)
    (h : cart.items = []) :
    cart.checkout customer now = ⟨cart, customer, none, none, .failure .emptyCart⟩ := by
  simp [ShoppingCart.checkout, h]

/-- A cart with a first offending line: `checkout` returns inside the loop
with the failure of that line and changes nothing. -/
theorem checkout_of_offender (cart : ShoppingCart) (customer : Customer) (now : Int)
    (pre : List CartItem) (l : CartItem) (post : List CartItem)
    (he : cart.items = pre ++ l :: post)
    (hpre : ∀ x ∈ pre, x.isExpired now = false ∧ x.quantity ≤ x.product.stock)
    (hl : l.isExpired now = true ∨ l.quantity > l.product.stock) :
    cart.checkout customer now = ⟨cart, customer, none, none,
      .failure (if l.isExpired now then .expiredItem l.product.name
                else .insufficientStock l.product.name l.product.stock)⟩ := by
  have hemp : cart.items.isEmpty = false := by
    rw [he]; cases pre <;> rfl
  have hloop := checkoutLoop_error now pre l post ⟨0, false, []⟩ hpre hl
  rw [← he] at hloop
  simp only [ShoppingCart.checkout, hemp, hloop]
  simp

/-- Every failing `checkout` leaves cart and customer as they were and
prints neither a shipment notice nor a receipt. -/
theorem checkout_failure_frame (cart : ShoppingCart) (customer : Customer) (now : Int)
    (f : Failure) (h : (cart.checkout customer now).outcome = .failure f) :
    cart.checkout customer now = ⟨cart, customer, none, none, .failure f⟩ := by
  by_cases hne : cart.items = []
  · rw [checkout_of_empty cart customer now hne] at h ⊢
    simp only [Outcome.failure.injEq] at h
    rw [h]
  · rcases all_pass_or_first_offender now cart.items with hall | ⟨pre, l, post, he, hp, hl⟩
    · have hp := checkout_of_pass cart customer now hne hall
      simp only at hp
      rcases lt_or_le customer.balance
        ((cart.items.map CartItem.getTotalPrice).sum +
          (if cart.items.any CartItem.isShippable then cart.shippingFee else 0)) with hlt | hle
      · rw [hp.1 hlt] at h ⊢
        simp only [Outcome.failure.injEq] at h
        rw [h]
      · rw [(hp.2 hle).2.2.2] at h
        cases h
    · rw [checkout_of_offender cart customer now pre l post he hp hl] at h ⊢
      simp only [Outcome.failure.injEq] at h
      rw [h]

/-- Every completed `checkout` went through the loop with all lines passing
and through the funds test. -/
theorem checkout_success_inv (cart : ShoppingCart) (customer : Customer) (now : Int)
    (subtotal shippingCharged total : ℚ)
    (h : (cart.checkout customer now).outcome = .success subtotal shippingCharged total) :
    cart.items ≠ [] ∧
    (∀ x ∈ cart.items, x.isExpired now = false ∧ x.quantity ≤ x.product.stock) ∧
    subtotal = (cart.items.map CartItem.getTotalPrice).sum ∧
    shippingCharged = (if cart.items.any CartItem.isShippable then cart.shippingFee else 0) ∧
    total = subtotal + shippingCharged ∧
    total ≤ customer.balance ∧
    (cart.checkout customer now).cart = cart ∧
    (cart.checkout customer now).customer = customer.pay total ∧
    (cart.checkout customer now).shipment =
      (if cart.items.any CartItem.isShippable then
        some (shipItems (cart.items.filter CartItem.isShippable)) else none) := by
  by_cases hne : cart.items = []
  · rw [checkout_of_empty cart customer now hne] at h
    cases h
  · rcases all_pass_or_first_offender now cart.items with hall | ⟨pre, l, post, he, hp, hl⟩
    · have hp := checkout_of_pass cart customer now hne hall
      simp only at hp
      rcases lt_or_le customer.balance
        ((cart.items.map CartItem.getTotalPrice).sum +
          (if cart.items.any CartItem.isShippable then cart.shippingFee else 0)) with hlt | hle
      · rw [hp.1 hlt] at h
        cases h
      · obtain ⟨h1, h2, h3, h4⟩ := hp.2 hle
        rw [h4] at h
        simp only [Outcome.success.injEq] at h
        obtain ⟨rfl, rfl, rfl⟩ := h
        exact ⟨hne, hall, rfl, rfl, rfl, hle, h1, h2, h3⟩
    · rw [checkout_of_offender cart customer now pre l post he hp hl] at h
      cases h

/-! ## Claims -/

/-- C1: whenever `checkout` succeeds, the customer's balance afterwards is
the balance before minus `total`, and `total` is `subtotal` plus the shipping
charged. -/
theorem checkout_success_debit (cart : ShoppingCart) (customer : Customer) (now : Int)
    (subtotal shippingCharged total : ℚ)
    (h : (cart.checkout customer now).outcome = .success subtotal shippingCharged total) :
    (cart.checkout customer now).customer.balance = customer.balance - total ∧
    total = subtotal + shippingCharged := by
  obtain ⟨_, _, _, _, ht, _, _, hc, _⟩ :=
    checkout_success_inv cart customer now subtotal shippingCharged total h
  exact ⟨by rw [hc]; rfl, ht⟩

/-- Witness for C1: the cart with 2 of A and 3 of B, fee 50, balance
1000. -/
theorem checkout_success_debit_witness :
    (scenarioCart.checkout ⟨"u", 1000⟩ 0).outcome = .success 350 50 400 ∧
    (scenarioCart.checkout ⟨"u", 1000⟩ 0).customer.balance = 1000 - 400 ∧
    (400 : ℚ) = 350 + 50 :=
  have h : (scenarioCart.checkout ⟨"u", 1000⟩ 0).outcome = .success 350 50 400 := by
    simp [scenarioCart, ShoppingCart.checkout, ShoppingCart.addItem,
      ShoppingCart.addShippingFee, itemA, itemB, checkoutLoop, CartItem.isExpired,
      Product.isExpired, CartItem.isShippable, CartItem.getTotalPrice,
      Customer.availableBalance, Customer.pay]
    norm_num
  ⟨h, checkout_success_debit scenarioCart ⟨"u", 1000⟩ 0 350 50 400 h⟩

/-- C2: `checkout` succeeds exactly when the cart has a line, no line is
expired at the evaluation time, every line's quantity is at most its
product's stock and the balance covers the total; a successful call debits
the total, every other call ends in a failure. -/
theorem checkout_succeeds_iff (cart : ShoppingCart) (customer : Customer) (now : Int) :
    ((cart.checkout customer now).outcome.isSuccess = true ↔
      cart.items ≠ [] ∧
      (∀ x ∈ cart.items, x.isExpired now = false) ∧
      (∀ x ∈ cart.items, x.quantity ≤ x.product.stock) ∧
      customer.balance ≥ (cart.items.map CartItem.getTotalPrice).sum +
        (if cart.items.any CartItem.isShippable then cart.shippingFee else 0)) ∧
    ((cart.checkout customer now).outcome.isSuccess = true →
      (cart.checkout customer now).customer.balance = customer.balance -
        ((cart.items.map CartItem.getTotalPrice).sum +
          (if cart.items.any CartItem.isShippable then cart.shippingFee else 0))) ∧
    ((cart.checkout customer now).outcome.isSuccess = false →
      ∃ f, (cart.checkout customer now).outcome = .failure f) := by
  have key : ∀ s c t, (cart.checkout customer now).outcome = .success s c t →
      t = (cart.items.map CartItem.getTotalPrice).sum +
        (if cart.items.any CartItem.isShippable then cart.shippingFee else 0) := by
    intro s c t h
    obtain ⟨_, _, hs, hc, ht, _⟩ := checkout_success_inv cart customer now s c t h
    rw [ht, hs, hc]
  refine ⟨⟨?_, ?_⟩, ?_, ?_⟩
  · intro h
    cases ho : (cart.checkout customer now).outcome with
    | failure f => rw [ho] at h; cases h
    | success s c t =>
      obtain ⟨hne, hall, _, _, _, hle, _⟩ := checkout_success_inv cart customer now s c t ho
      rw [key s c t ho] at hle
      exact ⟨hne, fun x hx => (hall x hx).1, fun x hx => (hall x hx).2, hle⟩
  · rintro ⟨hne, hexp, hst, hle⟩
    have hp := checkout_of_pass cart customer now hne (fun x hx => ⟨hexp x hx, hst x hx⟩)
    simp only at hp
    rw [(hp.2 hle).2.2.2]
    rfl
  · intro h
    cases ho : (cart.checkout customer now).outcome with
    | failure f => rw [ho] at h; cases h
    | success s c t =>
      obtain ⟨_, _, _, _, _, _, _, hc, _⟩ := checkout_success_inv cart customer now s c t ho
      rw [← key s c t ho, hc]
      rfl
  · intro h
    cases ho : (cart.checkout customer now).outcome with
    | failure f => exact ⟨f, rfl⟩
    | success s c t => rw [ho] at h; cases h

/-- Witness for C2: the scenario cart meets the four conditions with a
balance of 1000 and the call succeeds. -/
theorem checkout_succeeds_iff_witness :
    (scenarioCart.checkout ⟨"u", 1000⟩ 0).outcome.isSuccess = true ∧
    (scenarioCart.checkout ⟨"u", 1000⟩ 0).customer.balance = 600 := by
  have h := checkout_succeeds_iff scenarioCart ⟨"u", 1000⟩ 0
  have hs : (scenarioCart.checkout ⟨"u", 1000⟩ 0).outcome.isSuccess = true := by
    rw [h.1]
    simp [scenarioCart, ShoppingCart.addItem, ShoppingCart.addShippingFee, itemA, itemB,
      CartItem.isExpired, Product.isExpired, CartItem.isShippable, CartItem.getTotalPrice]
    norm_num
  refine ⟨hs, ?_⟩
  rw [h.2.1 hs]
  simp [scenarioCart, ShoppingCart.addItem, ShoppingCart.addShippingFee, itemA, itemB,
    CartItem.isShippable, CartItem.getTotalPrice]
  norm_num

/-- C3: whenever `checkout` fails, with whichever of the four failures, the
customer (so the balance) and the cart (so its lines) are what they were and
no shipment notice is produced. -/
theorem checkout_failure_no_mutation (cart : ShoppingCart) (customer : Customer) (now : Int)
    (f : Failure) (h : (cart.checkout customer now).outcome = .failure f) :
    (cart.checkout customer now).customer.balance = customer.balance ∧
    (cart.checkout customer now).customer = customer ∧
    (cart.checkout customer now).cart.items = cart.items ∧
    (cart.checkout customer now).cart = cart ∧
    (cart.checkout customer now).shipment = none := by
  rw [checkout_failure_frame cart customer now f h]
  exact ⟨rfl, rfl, rfl, rfl, rfl⟩

/-- Witness for C3: the scenario cart with a balance of 300 fails for lack
of funds. -/
theorem checkout_failure_no_mutation_witness :
    (scenarioCart.checkout ⟨"u", 300⟩ 0).outcome = .failure (.insufficientFunds 400 300) ∧
    (scenarioCart.checkout ⟨"u", 300⟩ 0).customer.balance = 300 ∧
    (scenarioCart.checkout ⟨"u", 300⟩ 0).customer = ⟨"u", 300⟩ ∧
    (scenarioCart.checkout ⟨"u", 300⟩ 0).cart.items = scenarioCart.items ∧
    (scenarioCart.checkout ⟨"u", 300⟩ 0).cart = scenarioCart ∧
    (scenarioCart.checkout ⟨"u", 300⟩ 0).shipment = none :=
  have h : (scenarioCart.checkout ⟨"u", 300⟩ 0).outcome =
      .failure (.insufficientFunds 400 300) := by
    simp [scenarioCart, ShoppingCart.checkout, ShoppingCart.addItem,
      ShoppingCart.addShippingFee, itemA, itemB, checkoutLoop, CartItem.isExpired,
      Product.isExpired, CartItem.isShippable, CartItem.getTotalPrice,
      Customer.availableBalance]
    norm_num
  ⟨h, checkout_failure_no_mutation scenarioCart ⟨"u", 300⟩ 0 _ h⟩

/-- C4: when some line of the cart is expired or asks for more than its
stock, the cart splits at the first such line `l` (every line before it
passes both checks) and `checkout` reports the failure of `l`: expired if
`l` is expired, otherwise insufficient stock with the stock of `l`. The
lines after `l`, the customer and the fee play no part. -/
theorem checkout_first_offender (cart : ShoppingCart) (customer : Customer) (now : Int)
    (h : ∃ x ∈ cart.items, x.isExpired now = true ∨ x.quantity > x.product.stock) :
    ∃ pre l post, cart.items = pre ++ l :: post ∧
      (∀ x ∈ pre, x.isExpired now = false ∧ x.quantity ≤ x.product.stock) ∧
      (l.isExpired now = true ∨ l.quantity > l.product.stock) ∧
      (cart.checkout customer now).outcome = .failure
        (if l.isExpired now then .expiredItem l.product.name
         else .insufficientStock l.product.name l.product.stock) ∧
      ∀ (post' : List CartItem) (fee' : ℚ) (customer' : Customer),
        (ShoppingCart.checkout ⟨pre ++ l :: post', fee'⟩ customer' now).outcome =
          (cart.checkout customer now).outcome := by
  rcases all_pass_or_first_offender now cart.items with hall | ⟨pre, l, post, he, hp, hl⟩
  · obtain ⟨x, hx, hbad⟩ := h
    have := hall x hx
    rcases hbad with hb | hb
    · rw [this.1] at hb; cases hb
    · exact absurd this.2 (not_le.mpr hb)
  · refine ⟨pre, l, post, he, hp, hl, ?_, ?_⟩
    · rw [checkout_of_offender cart customer now pre l post he hp hl]
    · intro post' fee' customer'
      rw [checkout_of_offender cart customer now pre l post he hp hl,
        checkout_of_offender ⟨pre ++ l :: post', fee'⟩ customer' now pre l post' rfl hp hl]

/-- Witness for C4: in the cart A, C, B evaluated at time 200 the line of C
(expiry date 100) is the first offender. -/
theorem checkout_first_offender_witness :
    (perishableCart.checkout ⟨"u", 1000⟩ 200).outcome = .failure (.expiredItem "C") ∧
    ∃ pre l post, perishableCart.items = pre ++ l :: post ∧
      (∀ x ∈ pre, x.isExpired 200 = false ∧ x.quantity ≤ x.product.stock) ∧
      (l.isExpired 200 = true ∨ l.quantity > l.product.stock) ∧
      (perishableCart.checkout ⟨"u", 1000⟩ 200).outcome = .failure
        (if l.isExpired 200 then .expiredItem l.product.name
         else .insufficientStock l.product.name l.product.stock) ∧
      ∀ (post' : List CartItem) (fee' : ℚ) (customer' : Customer),
        (ShoppingCart.checkout ⟨pre ++ l :: post', fee'⟩ customer' 200).outcome =
          (perishableCart.checkout ⟨"u", 1000⟩ 200).outcome :=
  ⟨by simp [perishableCart, ShoppingCart.checkout, ShoppingCart.addItem,
      ShoppingCart.addShippingFee, itemA, itemB, itemC, checkoutLoop, CartItem.isExpired,
      Product.isExpired, CartItem.isShippable, CartItem.getTotalPrice],
   checkout_first_offender perishableCart ⟨"u", 1000⟩ 200
    ⟨⟨itemC, 1⟩,
     by simp [perishableCart, ShoppingCart.addItem, ShoppingCart.addShippingFee, itemA, itemB,
       itemC],
     Or.inl (by simp [CartItem.isExpired, Product.isExpired, itemC])⟩⟩

/-- Every line of a cart built through `addItem` has a positive quantity
that is at most the stock of the product copy it holds. -/
theorem built_quantity_le_stock (cart : ShoppingCart) (h : cart.Built) :
    ∀ x ∈ cart.items, 0 < x.quantity ∧ x.quantity ≤ x.product.stock := by
  induction h with
  | init fee => simp
  | @addItem c p q _ ih =>
    by_cases hq : q ≤ 0 ∨ q > p.stock
    · simpa [ShoppingCart.addItem, hq] using ih
    · intro x hx
      simp only [ShoppingCart.addItem, hq, if_false, List.mem_append, List.mem_singleton] at hx
      rcases hx with hx | rfl
      · exact ih x hx
      · simp only [not_or, not_le, not_lt] at hq
        exact hq
  | @addShippingFee c fee _ ih => simpa [ShoppingCart.addShippingFee] using ih

/-- C5: if a cart built through `addItem` holds a line whose product is
perishable with an expiry date strictly before the evaluation time, then
`checkout` fails with an expired-item failure, naming an expired line of the
cart, and the balance is unchanged, whatever the other lines are. -/
theorem checkout_expired_line (cart : ShoppingCart) (customer : Customer) (now : Int)
    (hb : cart.Built)
    (h : ∃ x ∈ cart.items, x.product.expirable = true ∧ x.product.expiryDate < now) :
    (∃ l ∈ cart.items, l.isExpired now = true ∧
      (cart.checkout customer now).outcome = .failure (.expiredItem l.product.name)) ∧
    (cart.checkout customer now).customer.balance = customer.balance := by
  have hinv := built_quantity_le_stock cart hb
  rcases all_pass_or_first_offender now cart.items with hall | ⟨pre, l, post, he, hp, hl⟩
  · obtain ⟨x, hx, hexp, hdate⟩ := h
    have hx1 := (hall x hx).1
    have : x.product.expiryDate - now < 0 := by omega
    simp [CartItem.isExpired, Product.isExpired, hexp, this] at hx1
  · have hmem : l ∈ cart.items := by rw [he]; simp
    have hle : l.isExpired now = true := by
      rcases hl with hl | hl
      · exact hl
      · exact absurd (hinv l hmem).2 (not_le.mpr hl)
    have hc := checkout_of_offender cart customer now pre l post he hp hl
    rw [hc]
    exact ⟨⟨l, hmem, hle, by simp [hle]⟩, rfl⟩

/-- Witness for C5: the built cart A, C, B at time 200, after the expiry
date 100 of C. -/
theorem checkout_expired_line_witness :
    perishableCart.Built ∧
    (∃ x ∈ perishableCart.items, x.product.expirable = true ∧ x.product.expiryDate < 200) ∧
    (∃ l ∈ perishableCart.items, l.isExpired 200 = true ∧
      (perishableCart.checkout ⟨"u", 1000⟩ 200).outcome =
        .failure (.expiredItem l.product.name)) ∧
    (perishableCart.checkout ⟨"u", 1000⟩ 200).customer.balance = 1000 :=
  have hb : perishableCart.Built :=
    .addItem itemB 3 (.addItem itemC 1 (.addItem itemA 2 (.addShippingFee 50 (.init 0))))
  have hx : ∃ x ∈ perishableCart.items,
      x.product.expirable = true ∧ x.product.expiryDate < 200 :=
    ⟨⟨itemC, 1⟩,
     by simp [perishableCart, ShoppingCart.addItem, ShoppingCart.addShippingFee, itemA, itemB,
       itemC],
     by simp [itemC]⟩
  ⟨hb, hx, checkout_expired_line perishableCart ⟨"u", 1000⟩ 200 hb hx⟩

/-- C6: for a cart with at least one line whose lines all pass the expiry
and stock checks, and a balance strictly below the computed total,
`checkout` fails for lack of funds with that total and that balance, leaves
the balance as it was and produces no shipment notice. In particular the
scenario cart (total 400) with balance 300 fails with (400, 300) and the
balance stays 300. -/
theorem checkout_insufficient_funds :
    (∀ (cart : ShoppingCart) (customer : Customer) (now : Int),
      cart.items ≠ [] →
      (∀ x ∈ cart.items, x.isExpired now = false ∧ x.quantity ≤ x.product.stock) →
      customer.balance < (cart.items.map CartItem.getTotalPrice).sum +
        (if cart.items.any CartItem.isShippable then cart.shippingFee else 0) →
      (cart.checkout customer now).outcome = .failure (.insufficientFunds
        ((cart.items.map CartItem.getTotalPrice).sum +
          (if cart.items.any CartItem.isShippable then cart.shippingFee else 0))
        customer.balance) ∧
      (cart.checkout customer now).customer.balance = customer.balance ∧
      (cart.checkout customer now).shipment = none) ∧
    (∀ (name : String) (now : Int),
      (scenarioCart.checkout ⟨name, 300⟩ now).outcome =
        .failure (.insufficientFunds 400 300) ∧
      (scenarioCart.checkout ⟨name, 300⟩ now).customer.balance = 300 ∧
      (scenarioCart.checkout ⟨name, 300⟩ now).shipment = none) := by
  have gen : ∀ (cart : ShoppingCart) (customer : Customer) (now : Int),
      cart.items ≠ [] →
      (∀ x ∈ cart.items, x.isExpired now = false ∧ x.quantity ≤ x.product.stock) →
      customer.balance < (cart.items.map CartItem.getTotalPrice).sum +
        (if cart.items.any CartItem.isShippable then cart.shippingFee else 0) →
      cart.checkout customer now = ⟨cart, customer, none, none, .failure (.insufficientFunds
        ((cart.items.map CartItem.getTotalPrice).sum +
          (if cart.items.any CartItem.isShippable then cart.shippingFee else 0))
        customer.balance)⟩ := by
    intro cart customer now hne hall hlt
    have hp := checkout_of_pass cart customer now hne hall
    simp only at hp
    exact hp.1 hlt
  constructor
  · intro cart customer now hne hall hlt
    rw [gen cart customer now hne hall hlt]
    exact ⟨rfl, rfl, rfl⟩
  · intro name now
    have hitems : scenarioCart.items = [⟨itemA, 2⟩, ⟨itemB, 3⟩] := by
      simp [scenarioCart, ShoppingCart.addItem, ShoppingCart.addShippingFee, itemA, itemB]
    have hfee : scenarioCart.shippingFee = 50 := by
      simp [scenarioCart, ShoppingCart.addItem, ShoppingCart.addShippingFee, itemA, itemB]
    have htot : (scenarioCart.items.map CartItem.getTotalPrice).sum +
        (if scenarioCart.items.any CartItem.isShippable then scenarioCart.shippingFee else 0)
        = 400 := by
      rw [hitems, hfee]
      simp [CartItem.getTotalPrice, CartItem.isShippable, itemA, itemB]
      norm_num
    have h := gen scenarioCart ⟨name, 300⟩ now (by rw [hitems]; simp)
      (by
        rw [hitems]
        simp [CartItem.isExpired, Product.isExpired, itemA, itemB])
      (by rw [htot]; norm_num)
    rw [htot] at h
    rw [h]
    exact ⟨rfl, rfl, rfl⟩

/-- Witness for C6: a cart holding 2 of A only (total 250) and a balance of
100. -/
theorem checkout_insufficient_funds_witness :
    (ShoppingCart.checkout ⟨[⟨itemA, 2⟩], 50⟩ ⟨"u", 100⟩ 0).outcome =
      .failure (.insufficientFunds 250 100) ∧
    (ShoppingCart.checkout ⟨[⟨itemA, 2⟩], 50⟩ ⟨"u", 100⟩ 0).customer.balance = 100 ∧
    (ShoppingCart.checkout ⟨[⟨itemA, 2⟩], 50⟩ ⟨"u", 100⟩ 0).shipment = none := by
  have h := checkout_insufficient_funds.1 ⟨[⟨itemA, 2⟩], 50⟩ ⟨"u", 100⟩ 0 (by simp)
    (by simp [CartItem.isExpired, Product.isExpired, itemA])
    (by simp [CartItem.getTotalPrice, CartItem.isShippable, itemA]; norm_num)
  have htot : (([⟨itemA, 2⟩] : List CartItem).map CartItem.getTotalPrice).sum +
      (if ([⟨itemA, 2⟩] : List CartItem).any CartItem.isShippable then (50 : ℚ) else 0)
      = 250 := by
    simp [CartItem.getTotalPrice, CartItem.isShippable, itemA]
    norm_num
  simp only [htot] at h
  exact h

/-- C7, counterexample: with a shipping fee of 0 and one unit of the
shippable product A in the cart, `checkout` succeeds and the shipping
charged is 0 although a line is shippable. -/
theorem shipping_charged_zero_with_shippable :
    (freeShippingCart.checkout ⟨"u", 1000⟩ 0).outcome = .success 100 0 100 ∧
    (∃ x ∈ freeShippingCart.items, x.isShippable = true) ∧
    ¬ ((0 : ℚ) ≠ 0 ↔ ∃ x ∈ freeShippingCart.items, x.isShippable = true) := by
  have hs : ∃ x ∈ freeShippingCart.items, x.isShippable = true :=
    ⟨⟨itemA, 1⟩,
     by simp [freeShippingCart, ShoppingCart.addItem, ShoppingCart.addShippingFee, itemA],
     rfl⟩
  refine ⟨?_, hs, fun hiff => (hiff.mpr hs) rfl⟩
  simp [freeShippingCart, ShoppingCart.checkout, ShoppingCart.addItem,
    ShoppingCart.addShippingFee, itemA, checkoutLoop, CartItem.isExpired,
    Product.isExpired, CartItem.isShippable, CartItem.getTotalPrice,
    Customer.availableBalance]
  norm_num

/-- C7, amended: for every successful checkout the shipping charged is the
cart's shipping fee when at least one line is shippable and exactly 0 when
none is; so it is nonzero exactly when some line is shippable and the fee is
nonzero. -/
theorem shipping_charged_eq (cart : ShoppingCart) (customer : Customer) (now : Int)
    (subtotal shippingCharged total : ℚ)
    (h : (cart.checkout customer now).outcome = .success subtotal shippingCharged total) :
    ((∃ x ∈ cart.items, x.isShippable = true) → shippingCharged = cart.shippingFee) ∧
    ((¬ ∃ x ∈ cart.items, x.isShippable = true) → shippingCharged = 0) ∧
    (shippingCharged ≠ 0 ↔
      (∃ x ∈ cart.items, x.isShippable = true) ∧ cart.shippingFee ≠ 0) := by
  obtain ⟨_, _, _, hc, _⟩ :=
    checkout_success_inv cart customer now subtotal shippingCharged total h
  by_cases hs : ∃ x ∈ cart.items, x.isShippable = true
  · have hany : cart.items.any CartItem.isShippable = true := by simpa using hs
    rw [hany, if_pos rfl] at hc
    rw [hc]
    exact ⟨fun _ => rfl, fun hn => absurd hs hn, ⟨fun hf => ⟨hs, hf⟩, fun hf => hf.2⟩⟩
  · have hany : ¬ cart.items.any CartItem.isShippable = true := by simpa using hs
    rw [if_neg hany] at hc
    rw [hc]
    exact ⟨fun hs' => absurd hs' hs, fun _ => rfl,
      ⟨fun hf => absurd rfl hf, fun hf => absurd hf.1 hs⟩⟩

/-- Witness for C7 amended: the scenario cart, charged its fee of 50. -/
theorem shipping_charged_eq_witness :
    (scenarioCart.checkout ⟨"u", 1000⟩ 0).outcome = .success 350 50 400 ∧
    ((∃ x ∈ scenarioCart.items, x.isShippable = true) → (50 : ℚ) = scenarioCart.shippingFee) ∧
    ((¬ ∃ x ∈ scenarioCart.items, x.isShippable = true) → (50 : ℚ) = 0) ∧
    ((50 : ℚ) ≠ 0 ↔
      (∃ x ∈ scenarioCart.items, x.isShippable = true) ∧ scenarioCart.shippingFee ≠ 0) :=
  have h : (scenarioCart.checkout ⟨"u", 1000⟩ 0).outcome = .success 350 50 400 := by
    simp [scenarioCart, ShoppingCart.checkout, ShoppingCart.addItem,
      ShoppingCart.addShippingFee, itemA, itemB, checkoutLoop, CartItem.isExpired,
      Product.isExpired, CartItem.isShippable, CartItem.getTotalPrice,
      Customer.availableBalance, Customer.pay]
    norm_num
  ⟨h, shipping_charged_eq scenarioCart ⟨"u", 1000⟩ 0 350 50 400 h⟩

/-- C8: for every successful checkout, `subtotal` is the sum over all lines
of unit price times quantity, and `total` is that sum plus the cart's
shipping fee, added once, when at least one line is shippable, and plus 0
when none is. -/
theorem checkout_success_total (cart : ShoppingCart) (customer : Customer) (now : Int)
    (subtotal shippingCharged total : ℚ)
    (h : (cart.checkout customer now).outcome = .success subtotal shippingCharged total) :
    subtotal = (cart.items.map fun x => x.product.price * (x.quantity : ℚ)).sum ∧
    total = (cart.items.map fun x => x.product.price * (x.quantity : ℚ)).sum +
      (if ∃ x ∈ cart.items, x.product.shippable = true then cart.shippingFee else 0) := by
  obtain ⟨_, _, hs, hc, ht, _⟩ :=
    checkout_success_inv cart customer now subtotal shippingCharged total h
  have hsum : (cart.items.map CartItem.getTotalPrice).sum =
      (cart.items.map fun x => x.product.price * (x.quantity : ℚ)).sum := rfl
  have hany : (cart.items.any CartItem.isShippable = true) ↔
      ∃ x ∈ cart.items, x.product.shippable = true := by
    simp [CartItem.isShippable]
  rw [hsum] at hs
  refine ⟨hs, ?_⟩
  rw [ht, hs, hc]
  by_cases hx : ∃ x ∈ cart.items, x.product.shippable = true
  · rw [if_pos (hany.mpr hx), if_pos hx]
  · rw [if_neg (fun hh => hx (hany.mp hh)), if_neg hx]

/-- Witness for C8: two shippable lines (2 and 1 of A, fee 50) are charged
the fee once: 200 + 100 + 50. -/
theorem checkout_success_total_witness :
    (twoShippableCart.checkout ⟨"u", 1000⟩ 0).outcome = .success 300 50 350 ∧
    (300 : ℚ) = (twoShippableCart.items.map fun x => x.product.price * (x.quantity : ℚ)).sum ∧
    (350 : ℚ) = (twoShippableCart.items.map fun x => x.product.price * (x.quantity : ℚ)).sum +
      (if ∃ x ∈ twoShippableCart.items, x.product.shippable = true
        then twoShippableCart.shippingFee else 0) :=
  have h : (twoShippableCart.checkout ⟨"u", 1000⟩ 0).outcome = .success 300 50 350 := by
    simp [twoShippableCart, ShoppingCart.checkout, ShoppingCart.addItem,
      ShoppingCart.addShippingFee, itemA, checkoutLoop, CartItem.isExpired,
      Product.isExpired, CartItem.isShippable, CartItem.getTotalPrice,
      Customer.availableBalance, Customer.pay]
    norm_num
  ⟨h, checkout_success_total twoShippableCart ⟨"u", 1000⟩ 0 300 50 350 h⟩

/-- C9: `addItem` with a quantity that is not positive or that exceeds the
product's stock is rejected: the cart returned is the cart given, with the
same lines and the same number of lines, and the rejection is reported. -/
theorem addItem_rejects (cart : ShoppingCart) (product : Product) (quantity : Int)
    (h : quantity ≤ 0 ∨ quantity > product.stock) :
    (cart.addItem product quantity).1 = cart ∧
    (cart.addItem product quantity).1.items = cart.items ∧
    (cart.addItem product quantity).1.items.length = cart.items.length ∧
    (cart.addItem product quantity).2 = some product.name := by
  simp [ShoppingCart.addItem, h]

/-- Witness for C9: asking for 11 of A, whose stock is 10. -/
theorem addItem_rejects_witness :
    ((11 : Int) ≤ 0 ∨ (11 : Int) > itemA.stock) ∧
    (scenarioCart.addItem itemA 11).1 = scenarioCart ∧
    (scenarioCart.addItem itemA 11).1.items = scenarioCart.items ∧
    (scenarioCart.addItem itemA 11).1.items.length = scenarioCart.items.length ∧
    (scenarioCart.addItem itemA 11).2 = some itemA.name :=
  have h : (11 : Int) ≤ 0 ∨ (11 : Int) > itemA.stock := Or.inr (by decide)
  ⟨h, addItem_rejects scenarioCart itemA 11 h⟩

/-- C10: `addItem` with a quantity that is positive and at most the
product's stock is accepted: the lines afterwards are the lines before, in
order, followed by one new line holding a copy of the product and the
quantity; the copy carries the product's stock as it is, nothing is
reported and the fee is untouched. -/
theorem addItem_appends (cart : ShoppingCart) (product : Product) (quantity : Int)
    (hpos : 0 < quantity) (hle : quantity ≤ product.stock) :
    (∃ l : CartItem, (cart.addItem product quantity).1.items = cart.items ++ [l] ∧
      l.product = product ∧ l.quantity = quantity ∧ l.product.stock = product.stock) ∧
    (cart.addItem product quantity).1.items.length = cart.items.length + 1 ∧
    (cart.addItem product quantity).1.shippingFee = cart.shippingFee ∧
    (cart.addItem product quantity).2 = none := by
  have h : ¬ (quantity ≤ 0 ∨ quantity > product.stock) := by
    simp only [not_or, not_le, not_lt]
    exact ⟨hpos, hle⟩
  refine ⟨⟨⟨product, quantity⟩, ?_, rfl, rfl, rfl⟩, ?_, ?_, ?_⟩ <;>
    simp [ShoppingCart.addItem, h]

/-- Witness for C10: adding 10 of A, the whole stock, to the scenario
cart. -/
theorem addItem_appends_witness :
    (0 : Int) < 10 ∧ (10 : Int) ≤ itemA.stock ∧
    (∃ l : CartItem, (scenarioCart.addItem itemA 10).1.items = scenarioCart.items ++ [l] ∧
      l.product = itemA ∧ l.quantity = 10 ∧ l.product.stock = itemA.stock) ∧
    (scenarioCart.addItem itemA 10).1.items.length = scenarioCart.items.length + 1 ∧
    (scenarioCart.addItem itemA 10).1.shippingFee = scenarioCart.shippingFee ∧
    (scenarioCart.addItem itemA 10).2 = none :=
  ⟨by decide, by decide, addItem_appends scenarioCart itemA 10 (by decide) (by decide)⟩

/-! ## Shipping and truncation -/

/-- Truncated division of numerator by denominator rounds toward zero: down
for a value that is not negative, up for a negative one. -/
theorem tdiv_num_den_eq (x : ℚ) :
    Int.tdiv x.num (x.den : Int) = if 0 ≤ x then ⌊x⌋ else ⌈x⌉ := by
  have hden : (0 : Int) ≤ (x.den : Int) := Int.natCast_nonneg _
  by_cases hx : 0 ≤ x
  · rw [if_pos hx, Rat.floor_def]
    exact Int.tdiv_eq_ediv (Rat.num_nonneg.mpr hx) hden
  · rw [if_neg hx]
    have hneg : 0 ≤ -x := by linarith [not_le.mp hx]
    have hnum : 0 ≤ (-x).num := Rat.num_nonneg.mpr hneg
    have h1 : ⌈x⌉ = -⌊-x⌋ := by rw [Int.floor_neg, neg_neg]
    rw [h1, Rat.floor_def]
    have h2 : Int.tdiv (-x).num ((-x).den : Int) = (-x).num / ((-x).den : Int) :=
      Int.tdiv_eq_ediv hnum (Int.natCast_nonneg _)
    rw [← h2, Rat.num_neg_eq_neg_num, Rat.den_neg_eq_den, Int.neg_tdiv, neg_neg]

/-- A value strictly between -2147483649 and 2147483648 truncates into the
range of `int`. -/
theorem trunc_in_range (x : ℚ) (hlo : -2147483649 < x) (hhi : x < 2147483648) :
    INT_MIN ≤ (if 0 ≤ x then ⌊x⌋ else ⌈x⌉) ∧ (if 0 ≤ x then ⌊x⌋ else ⌈x⌉) ≤ INT_MAX := by
  by_cases hx : 0 ≤ x
  · rw [if_pos hx]
    have h0 : (0 : Int) ≤ ⌊x⌋ := Int.floor_nonneg.mpr hx
    have h1 : ⌊x⌋ < 2147483648 := Int.floor_lt.mpr (by exact_mod_cast hhi)
    simp only [INT_MIN, INT_MAX]
    omega
  · rw [if_neg hx]
    have h0 : ⌈x⌉ ≤ 0 := Int.ceil_le.mpr (by exact_mod_cast le_of_lt (not_le.mp hx))
    have h1 : -2147483649 < ⌈x⌉ := Int.lt_ceil.mpr (by exact_mod_cast hlo)
    simp only [INT_MIN, INT_MAX]
    omega

/-- The conversion `truncToInt` rounds toward zero on a value that truncates
into the range of `int`. -/
theorem truncToInt_eq (x : ℚ) (hlo : -2147483649 < x) (hhi : x < 2147483648) :
    truncToInt x = if 0 ≤ x then ⌊x⌋ else ⌈x⌉ := by
  have hr := trunc_in_range x hlo hhi
  simp only [truncToInt, tdiv_num_den_eq]
  exact if_pos hr

/-- The loop of `shipItems` appends one entry per shippable line, in order,
and adds the total weights of the shippable lines to the accumulator. -/
theorem shipItemsLoop_eq (items : List CartItem) (m : Manifest) :
    shipItemsLoop items m =
      { entries := m.entries ++ (items.filter CartItem.isShippable).map fun x =>
          ⟨x.quantity, x.product.name, truncToInt (x.product.weight * 1000)⟩
        totalWeight := m.totalWeight +
          ((items.filter CartItem.isShippable).map CartItem.getTotalWeight).sum } := by
  induction items generalizing m with
  | nil => simp [shipItemsLoop]
  | cons item rest ih =>
    cases hs : item.isShippable
    · simp [shipItemsLoop, hs, ih]
    · simp [shipItemsLoop, hs, ih, add_assoc]

/-- What `shipItems` prints for a list of lines. -/
theorem shipItems_eq (items : List CartItem) :
    shipItems items =
      { entries := (items.filter CartItem.isShippable).map fun x =>
          ⟨x.quantity, x.product.name, truncToInt (x.product.weight * 1000)⟩
        totalWeight := ((items.filter CartItem.isShippable).map CartItem.getTotalWeight).sum } := by
  rw [shipItems, shipItemsLoop_eq]
  simp

/-- A cart whose lines all ask for at most the stock of their product copy
never ends `checkout` at the stock test. -/
theorem checkout_ne_insufficientStock (cart : ShoppingCart) (customer : Customer) (now : Int)
    (hinv : ∀ x ∈ cart.items, x.quantity ≤ x.product.stock) (name : String) (available : Int) :
    (cart.checkout customer now).outcome ≠ .failure (.insufficientStock name available) := by
  intro h
  by_cases hne : cart.items = []
  · rw [checkout_of_empty cart customer now hne] at h
    cases h
  · rcases all_pass_or_first_offender now cart.items with hall | ⟨pre, l, post, he, hp, hl⟩
    · have hp := checkout_of_pass cart customer now hne hall
      simp only at hp
      rcases lt_or_le customer.balance
        ((cart.items.map CartItem.getTotalPrice).sum +
          (if cart.items.any CartItem.isShippable then cart.shippingFee else 0)) with hlt | hle
      · rw [hp.1 hlt] at h
        cases h
      · rw [(hp.2 hle).2.2.2] at h
        cases h
    · have hmem : l ∈ cart.items := by rw [he]; simp
      have hexp : l.isExpired now = true := by
        rcases hl with hl | hl
        · exact hl
        · exact absurd (hinv l hmem) (not_le.mpr hl)
      rw [checkout_of_offender cart customer now pre l post he hp hl] at h
      simp [hexp] at h

/-- C11, counterexample: 5 of A are added while the stock of A is 10, then
`reduceStock 8` brings the catalog item down to 2, below 5; the following
`checkout` still succeeds, it does not report insufficient stock. -/
theorem checkout_after_reduceStock_succeeds :
    (itemA.reduceStock 8).stock = 2 ∧
    fiveOfACart = (((⟨[], 0⟩ : ShoppingCart).addShippingFee 50).addItem itemA 5).1 ∧
    ((⟨[], 0⟩ : ShoppingCart).addShippingFee 50).addItem itemA 5 =
      (⟨[⟨itemA, 5⟩], 50⟩, none) ∧
    (fiveOfACart.checkout ⟨"u", 1000⟩ 0).outcome = .success 500 50 550 ∧
    (fiveOfACart.checkout ⟨"u", 1000⟩ 0).outcome ≠
      .failure (.insufficientStock (itemA.reduceStock 8).name (itemA.reduceStock 8).stock) := by
  have h : (fiveOfACart.checkout ⟨"u", 1000⟩ 0).outcome = .success 500 50 550 := by
    simp [fiveOfACart, ShoppingCart.checkout, ShoppingCart.addItem,
      ShoppingCart.addShippingFee, itemA, checkoutLoop, CartItem.isExpired,
      Product.isExpired, CartItem.isShippable, CartItem.getTotalPrice,
      Customer.availableBalance, Customer.pay]
    norm_num
  refine ⟨by simp [Product.reduceStock, wrapInt, INT_MIN, itemA], rfl, ?_, h, ?_⟩
  · simp [ShoppingCart.addItem, ShoppingCart.addShippingFee, itemA]
  · rw [h]
    simp

/-- C11, amended: `checkout` compares each line's quantity with the stock
of the product copy the line has held since it was added. When a line
`(product, quantity)` is added successfully to a built cart, the line keeps
the stock the product had then, whatever `reduceStock` makes of the product
afterwards, and the following `checkout` does not fail with insufficient
stock; its outcome is the one of the first failing check among expiry and
funds, or success. -/
theorem checkout_uses_line_copy (cart : ShoppingCart) (product : Product)
    (quantity k : Int) (customer : Customer) (now : Int)
    (hb : cart.Built) (hpos : 0 < quantity) (hle : quantity ≤ product.stock)
    (hred : (product.reduceStock k).stock < quantity) :
    (cart.addItem product quantity).1.items = cart.items ++ [⟨product, quantity⟩] ∧
    (∀ l ∈ (cart.addItem product quantity).1.items, l.quantity ≤ l.product.stock) ∧
    (⟨product.reduceStock k, quantity⟩ : CartItem) ∉ (cart.addItem product quantity).1.items ∧
    ∀ (name : String) (available : Int),
      ((cart.addItem product quantity).1.checkout customer now).outcome ≠
        .failure (.insufficientStock name available) := by
  have hb' : (cart.addItem product quantity).1.Built := .addItem product quantity hb
  have hinv := built_quantity_le_stock _ hb'
  have hq : ¬ (quantity ≤ 0 ∨ quantity > product.stock) := by
    simp only [not_or, not_le, not_lt]
    exact ⟨hpos, hle⟩
  refine ⟨by simp [ShoppingCart.addItem, hq], fun l hl => (hinv l hl).2, ?_, ?_⟩
  · intro hmem
    have := (hinv _ hmem).2
    exact absurd this (not_le.mpr hred)
  · intro name available
    exact checkout_ne_insufficientStock _ customer now (fun l hl => (hinv l hl).2) name available

/-- Witness for C11 amended: 5 of A added to an empty cart, the catalog
stock then reduced by 8. -/
theorem checkout_uses_line_copy_witness :
    (((⟨[], 50⟩ : ShoppingCart).addItem itemA 5).1.items = [] ++ [⟨itemA, 5⟩]) ∧
    (∀ l ∈ ((⟨[], 50⟩ : ShoppingCart).addItem itemA 5).1.items, l.quantity ≤ l.product.stock) ∧
    (⟨itemA.reduceStock 8, 5⟩ : CartItem) ∉ ((⟨[], 50⟩ : ShoppingCart).addItem itemA 5).1.items ∧
    ∀ (name : String) (available : Int),
      (((⟨[], 50⟩ : ShoppingCart).addItem itemA 5).1.checkout ⟨"u", 1000⟩ 0).outcome ≠
        .failure (.insufficientStock name available) :=
  checkout_uses_line_copy ⟨[], 50⟩ itemA 5 8 ⟨"u", 1000⟩ 0 (.init 50) (by decide)
    (by simp [itemA]) (by simp [Product.reduceStock, wrapInt, INT_MIN, itemA])

/-- C12: for a list of shippable lines, the total weight of the manifest
`shipItems` builds is the sum over the lines of unit weight times quantity;
it is 0 for the empty list. -/
theorem shipItems_totalWeight :
    (∀ items : List CartItem, (∀ x ∈ items, x.isShippable = true) →
      (shipItems items).totalWeight =
        (items.map fun x => x.product.weight * (x.quantity : ℚ)).sum) ∧
    (shipItems []).totalWeight = 0 := by
  constructor
  · intro items h
    have hf : items.filter CartItem.isShippable = items := List.filter_eq_self.mpr h
    rw [shipItems_eq, hf]
    rfl
  · rfl

/-- Witness for C12: 2 of A (0.2 kg each) and 3 of A weigh 0.4 + 0.6 = 1
kg. -/
theorem shipItems_totalWeight_witness :
    (shipItems [⟨itemA, 2⟩, ⟨itemA, 3⟩]).totalWeight = 1 := by
  rw [shipItems_totalWeight.1 [⟨itemA, 2⟩, ⟨itemA, 3⟩]
    (by simp [CartItem.isShippable, itemA])]
  simp [itemA]
  norm_num

/-- C14: for every customer and every cart with no line, `checkout` ends
with the empty-cart failure and the balance is unchanged. -/
theorem checkout_empty_cart (cart : ShoppingCart) (customer : Customer) (now : Int)
    (h : cart.items = []) :
    (cart.checkout customer now).outcome = .failure .emptyCart ∧
    (cart.checkout customer now).customer.balance = customer.balance := by
  rw [checkout_of_empty cart customer now h]
  exact ⟨rfl, rfl⟩

/-- Witness for C14: a fresh cart with fee 50 and a balance of 1000. -/
theorem checkout_empty_cart_witness :
    (ShoppingCart.checkout ⟨[], 50⟩ ⟨"u", 1000⟩ 0).outcome = .failure .emptyCart ∧
    (ShoppingCart.checkout ⟨[], 50⟩ ⟨"u", 1000⟩ 0).customer.balance = 1000 :=
  checkout_empty_cart ⟨[], 50⟩ ⟨"u", 1000⟩ 0 rfl

/-- C15: the scenario. Product A (price 100, stock 10, shippable, 0.2 kg)
is added with quantity 2, product B (price 50, stock 20, not shippable) with
quantity 3, the fee is 50 and the balance 1000. Both lines are accepted and
`checkout` succeeds with subtotal 350, shipping 50, total 400, a balance of
600 afterwards, and a shipment notice with the single entry (2, A, 200 g)
and a total weight of 0.4 kg. -/
theorem checkout_scenario (fee0 : ℚ) (name : String) (now : Int) :
    ((((⟨[], fee0⟩ : ShoppingCart).addShippingFee 50).addItem
        ⟨"A", 100, 10, false, true, 0, 0.2⟩ 2).1.addItem
        ⟨"B", 50, 20, false, false, 0, 0⟩ 3).1 =
      ⟨[⟨⟨"A", 100, 10, false, true, 0, 0.2⟩, 2⟩, ⟨⟨"B", 50, 20, false, false, 0, 0⟩, 3⟩], 50⟩ ∧
    (ShoppingCart.checkout
        ⟨[⟨⟨"A", 100, 10, false, true, 0, 0.2⟩, 2⟩, ⟨⟨"B", 50, 20, false, false, 0, 0⟩, 3⟩], 50⟩
        ⟨name, 1000⟩ now).outcome = .success 350 50 400 ∧
    (ShoppingCart.checkout
        ⟨[⟨⟨"A", 100, 10, false, true, 0, 0.2⟩, 2⟩, ⟨⟨"B", 50, 20, false, false, 0, 0⟩, 3⟩], 50⟩
        ⟨name, 1000⟩ now).customer.balance = 600 ∧
    (ShoppingCart.checkout
        ⟨[⟨⟨"A", 100, 10, false, true, 0, 0.2⟩, 2⟩, ⟨⟨"B", 50, 20, false, false, 0, 0⟩, 3⟩], 50⟩
        ⟨name, 1000⟩ now).shipment = some ⟨[⟨2, "A", 200⟩], 0.4⟩ := by
  have ht : truncToInt (0.2 * 1000) = 200 := by
    rw [truncToInt_eq _ (by norm_num) (by norm_num)]
    norm_num
  refine ⟨?_, ?_, ?_, ?_⟩
  · simp [ShoppingCart.addItem, ShoppingCart.addShippingFee]
  · simp [ShoppingCart.checkout, checkoutLoop, CartItem.isExpired,
      Product.isExpired, CartItem.isShippable, CartItem.getTotalPrice,
      Customer.availableBalance, Customer.pay]
    norm_num
  · simp [ShoppingCart.checkout, checkoutLoop, CartItem.isExpired,
      Product.isExpired, CartItem.isShippable, CartItem.getTotalPrice,
      Customer.availableBalance, Customer.pay]
    norm_num
  · simp [ShoppingCart.checkout, checkoutLoop, CartItem.isExpired,
      Product.isExpired, CartItem.isShippable, CartItem.getTotalPrice,
      Customer.availableBalance, Customer.pay, shipItems, shipItemsLoop,
      CartItem.getTotalWeight, ht]
    norm_num

/-- C16: for every successful checkout the debit is the only change: the
cart afterwards is the cart before, with the same lines, quantities and
product stocks, and the customer afterwards is the customer before with the
balance lowered by the total. -/
theorem checkout_success_frame (cart : ShoppingCart) (customer : Customer) (now : Int)
    (subtotal shippingCharged total : ℚ)
    (h : (cart.checkout customer now).outcome = .success subtotal shippingCharged total) :
    (cart.checkout customer now).cart = cart ∧
    (cart.checkout customer now).cart.items = cart.items ∧
    (cart.checkout customer now).cart.items.map (fun x => x.quantity) =
      cart.items.map (fun x => x.quantity) ∧
    (cart.checkout customer now).cart.items.map (fun x => x.product.stock) =
      cart.items.map (fun x => x.product.stock) ∧
    (cart.checkout customer now).customer =
      { name := customer.name, balance := customer.balance - total } := by
  obtain ⟨_, _, _, _, _, _, hcart, hcust, _⟩ :=
    checkout_success_inv cart customer now subtotal shippingCharged total h
  rw [hcart, hcust]
  exact ⟨rfl, rfl, rfl, rfl, rfl⟩

/-- Witness for C16: the scenario cart with a balance of 1000. -/
theorem checkout_success_frame_witness :
    (scenarioCart.checkout ⟨"u", 1000⟩ 0).outcome = .success 350 50 400 ∧
    (scenarioCart.checkout ⟨"u", 1000⟩ 0).cart = scenarioCart ∧
    (scenarioCart.checkout ⟨"u", 1000⟩ 0).cart.items = scenarioCart.items ∧
    (scenarioCart.checkout ⟨"u", 1000⟩ 0).cart.items.map (fun x => x.quantity) =
      scenarioCart.items.map (fun x => x.quantity) ∧
    (scenarioCart.checkout ⟨"u", 1000⟩ 0).cart.items.map (fun x => x.product.stock) =
      scenarioCart.items.map (fun x => x.product.stock) ∧
    (scenarioCart.checkout ⟨"u", 1000⟩ 0).customer = { name := "u", balance := 1000 - 400 } :=
  have h : (scenarioCart.checkout ⟨"u", 1000⟩ 0).outcome = .success 350 50 400 := by
    simp [scenarioCart, ShoppingCart.checkout, ShoppingCart.addItem,
      ShoppingCart.addShippingFee, itemA, itemB, checkoutLoop, CartItem.isExpired,
      Product.isExpired, CartItem.isShippable, CartItem.getTotalPrice,
      Customer.availableBalance, Customer.pay]
    norm_num
  ⟨h, checkout_success_frame scenarioCart ⟨"u", 1000⟩ 0 350 50 400 h⟩

/-- C17: a product with stock `s` added twice to a built cart, with
quantities `q1` and `q2` that are each positive and at most `s`, gives two
separate lines at the end of the cart. The following `checkout` never fails
with insufficient stock, whatever `q1 + q2` is; when it succeeds the
subtotal counts both lines, and on a cart that was empty before it does
succeed as soon as the product is not expired and the balance covers the
total. -/
theorem duplicate_lines_independent (cart : ShoppingCart) (product : Product)
    (q1 q2 : Int) (customer : Customer) (now : Int) (hb : cart.Built)
    (h1 : 0 < q1) (h1s : q1 ≤ product.stock) (h2 : 0 < q2) (h2s : q2 ≤ product.stock) :
    ((cart.addItem product q1).1.addItem product q2).1.items =
      cart.items ++ [⟨product, q1⟩, ⟨product, q2⟩] ∧
    (∀ (name : String) (available : Int),
      (((cart.addItem product q1).1.addItem product q2).1.checkout customer now).outcome ≠
        .failure (.insufficientStock name available)) ∧
    (∀ subtotal shippingCharged total : ℚ,
      (((cart.addItem product q1).1.addItem product q2).1.checkout customer now).outcome =
        .success subtotal shippingCharged total →
      subtotal = (cart.items.map CartItem.getTotalPrice).sum +
        product.price * (q1 : ℚ) + product.price * (q2 : ℚ)) ∧
    (cart.items = [] → product.isExpired now = false →
      product.price * (q1 : ℚ) + product.price * (q2 : ℚ) +
        (if product.shippable then cart.shippingFee else 0) ≤ customer.balance →
      (((cart.addItem product q1).1.addItem product q2).1.checkout customer now).outcome =
        .success (product.price * (q1 : ℚ) + product.price * (q2 : ℚ))
          (if product.shippable then cart.shippingFee else 0)
          (product.price * (q1 : ℚ) + product.price * (q2 : ℚ) +
            (if product.shippable then cart.shippingFee else 0))) := by
  have hq1 : ¬ (q1 ≤ 0 ∨ q1 > product.stock) := by
    simp only [not_or, not_le, not_lt]
    exact ⟨h1, h1s⟩
  have hq2 : ¬ (q2 ≤ 0 ∨ q2 > product.stock) := by
    simp only [not_or, not_le, not_lt]
    exact ⟨h2, h2s⟩
  have hitems : ((cart.addItem product q1).1.addItem product q2).1.items =
      cart.items ++ [⟨product, q1⟩, ⟨product, q2⟩] := by
    simp [ShoppingCart.addItem, hq1, hq2]
  have hfee : ((cart.addItem product q1).1.addItem product q2).1.shippingFee =
      cart.shippingFee := by
    simp [ShoppingCart.addItem, hq1, hq2]
  have hb2 : ((cart.addItem product q1).1.addItem product q2).1.Built :=
    .addItem product q2 (.addItem product q1 hb)
  have hinv := built_quantity_le_stock _ hb2
  refine ⟨hitems, ?_, ?_, ?_⟩
  · intro name available
    exact checkout_ne_insufficientStock _ customer now (fun l hl => (hinv l hl).2) name available
  · intro s c t hsucc
    obtain ⟨_, _, hs, _⟩ := checkout_success_inv _ customer now s c t hsucc
    rw [hs, hitems]
    simp [CartItem.getTotalPrice, add_assoc]
  · intro hempty hexp hbal
    have hitems2 : ((cart.addItem product q1).1.addItem product q2).1.items =
        [⟨product, q1⟩, ⟨product, q2⟩] := by
      rw [hitems, hempty]
      rfl
    have hp := checkout_of_pass ((cart.addItem product q1).1.addItem product q2).1 customer now
      (by rw [hitems2]; simp)
      (by
        rw [hitems2]
        intro x hx
        simp only [List.mem_cons, List.mem_singleton, List.not_mem_nil, or_false] at hx
        rcases hx with rfl | rfl
        · exact ⟨hexp, h1s⟩
        · exact ⟨hexp, h2s⟩)
    simp only [hitems2, hfee] at hp
    have hsum : (List.map CartItem.getTotalPrice
        [(⟨product, q1⟩ : CartItem), ⟨product, q2⟩]).sum =
        product.price * (q1 : ℚ) + product.price * (q2 : ℚ) := by
      simp [CartItem.getTotalPrice]
    have hany : (List.any [(⟨product, q1⟩ : CartItem), ⟨product, q2⟩] CartItem.isShippable) =
        product.shippable := by
      simp [CartItem.isShippable]
    rw [hsum, hany] at hp
    exact (hp.2 hbal).2.2.2

/-- Witness for C17: 6 and then 7 of A, whose stock is 10, so 13 in all;
the checkout succeeds with subtotal 600 + 700. -/
theorem duplicate_lines_independent_witness :
    duplicateCart.items = [⟨itemA, 6⟩, ⟨itemA, 7⟩] ∧
    (∀ (name : String) (available : Int),
      (duplicateCart.checkout ⟨"u", 2000⟩ 0).outcome ≠
        .failure (.insufficientStock name available)) ∧
    (duplicateCart.checkout ⟨"u", 2000⟩ 0).outcome = .success 1300 50 1350 := by
  have h := duplicate_lines_independent ((⟨[], 0⟩ : ShoppingCart).addShippingFee 50) itemA 6 7
    ⟨"u", 2000⟩ 0 (.addShippingFee 50 (.init 0)) (by decide) (by simp [itemA]) (by decide)
    (by simp [itemA])
  refine ⟨h.1, h.2.1, ?_⟩
  have h4 := h.2.2.2 rfl (by simp [Product.isExpired, itemA])
    (by simp [ShoppingCart.addShippingFee, itemA]; norm_num)
  have e1 : itemA.price * ((6 : Int) : ℚ) + itemA.price * ((7 : Int) : ℚ) = 1300 := by
    simp [itemA]; norm_num
  have e2 : (if itemA.shippable = true
      then ((⟨[], 0⟩ : ShoppingCart).addShippingFee 50).shippingFee else 0) = (50 : ℚ) := by
    simp [ShoppingCart.addShippingFee, itemA]
  rw [e1, e2] at h4
  have e3 : (1300 : ℚ) + 50 = 1350 := by norm_num
  rw [e3] at h4
  exact h4

/-- C18: a product is expired at time `now` exactly when it is perishable
and its expiry date is strictly before `now`, and a cart line is expired
exactly when its product is. So a product that is not perishable is never
expired, whatever its expiry date, and a perishable product whose expiry
date is `now` is not expired. -/
theorem isExpired_iff (p : Product) (now : Int) :
    (p.isExpired now = true ↔ p.expirable = true ∧ p.expiryDate < now) ∧
    (∀ quantity : Int,
      CartItem.isExpired ⟨p, quantity⟩ now = true ↔
        p.expirable = true ∧ p.expiryDate < now) ∧
    (p.expirable = false → p.isExpired now = false) ∧
    (p.expirable = true → p.expiryDate = now → p.isExpired now = false) := by
  have key : p.isExpired now = true ↔ p.expirable = true ∧ p.expiryDate < now := by
    cases he : p.expirable
    · simp [Product.isExpired, he]
    · simp [Product.isExpired, he]
  refine ⟨key, fun _ => key, ?_, ?_⟩
  · intro he
    simp [Product.isExpired, he]
  · intro he hd
    simp [Product.isExpired, he, hd]

/-- Witness for C18: C (perishable, expiry date 100) is expired at 101 and
not at 100; B (not perishable, expiry date 0) is not expired at 5. -/
theorem isExpired_iff_witness :
    itemC.isExpired 101 = true ∧ itemC.isExpired 100 = false ∧ itemB.isExpired 5 = false :=
  ⟨(isExpired_iff itemC 101).1.mpr ⟨rfl, by decide⟩,
   (isExpired_iff itemC 100).2.2.2 rfl rfl,
   (isExpired_iff itemB 5).2.2.1 rfl⟩

/-- C19: every cart built from a fresh cart by calls of `addItem`, accepted
or rejected, has in each line a positive quantity that is at most the stock
of the product copy the line holds; so `checkout` of such a cart never ends
at the stock test. -/
theorem built_cart_invariant (cart : ShoppingCart) (hb : cart.Built) :
    (∀ x ∈ cart.items, 0 < x.quantity ∧ x.quantity ≤ x.product.stock) ∧
    ∀ (customer : Customer) (now : Int) (name : String) (available : Int),
      (cart.checkout customer now).outcome ≠ .failure (.insufficientStock name available) := by
  have hinv := built_quantity_le_stock cart hb
  refine ⟨hinv, ?_⟩
  intro customer now name available
  exact checkout_ne_insufficientStock cart customer now (fun l hl => (hinv l hl).2) name available

/-- Witness for C19: a cart built by an accepted call (2 of A), a rejected
call (11 of A, stock 10) and an accepted call (3 of B). -/
theorem built_cart_invariant_witness :
    ((((⟨[], 50⟩ : ShoppingCart).addItem itemA 2).1.addItem itemA 11).1.addItem itemB 3).1.items =
      [⟨itemA, 2⟩, ⟨itemB, 3⟩] ∧
    (∀ x ∈ ((((⟨[], 50⟩ : ShoppingCart).addItem itemA 2).1.addItem itemA 11).1.addItem
        itemB 3).1.items, 0 < x.quantity ∧ x.quantity ≤ x.product.stock) ∧
    ∀ (customer : Customer) (now : Int) (name : String) (available : Int),
      (((((⟨[], 50⟩ : ShoppingCart).addItem itemA 2).1.addItem itemA 11).1.addItem
        itemB 3).1.checkout customer now).outcome ≠
          .failure (.insufficientStock name available) :=
  ⟨by simp [ShoppingCart.addItem, itemA, itemB],
   built_cart_invariant _ (.addItem itemB 3 (.addItem itemA 11 (.addItem itemA 2 (.init 50))))⟩

/-- A completed `checkout` over doubles passed the funds test on its total
and left the customer debited by that total. -/
theorem ieee_checkout_success_inv (cart : Ieee.ShoppingCart) (customer : Ieee.Customer)
    (now : Int) (subtotal shippingCharged total : Dbl)
    (h : (cart.checkout customer now).outcome = .success subtotal shippingCharged total) :
    customer.balance.ge total = true ∧
    (cart.checkout customer now).customer.balance = customer.balance.sub total := by
  by_cases hemp : cart.items.isEmpty = true
  · simp [Ieee.ShoppingCart.checkout, hemp] at h
  · cases hloop : Ieee.checkoutLoop now cart.items ⟨.fin 0, false, []⟩ with
    | error f => simp [Ieee.ShoppingCart.checkout, hemp, hloop] at h
    | ok st =>
      cases hav : customer.availableBalance
          (st.subtotal.add (if st.needsShipping then cart.shippingFee else .fin 0))
      · simp [Ieee.ShoppingCart.checkout, hemp, hloop, hav] at h
      · simp only [Ieee.ShoppingCart.checkout, hemp, hloop, hav, Bool.not_true, if_false,
          Bool.false_eq_true, Ieee.Outcome.success.injEq] at h ⊢
        obtain ⟨_, _, ht⟩ := h
        rw [ht] at hav
        rw [ht]
        exact ⟨hav, rfl⟩

/-- A finite `double` that is not negative compares `>=` with 0, also after
rounding to an infinity. -/
theorem Dbl.ge_zero_ofRat (q : ℚ) (hq : 0 ≤ q) : (Dbl.ofRat q).ge (.fin 0) = true := by
  have hb : (0 : ℚ) < Dbl.overflowBound := by
    unfold Dbl.overflowBound
    norm_num
  unfold Dbl.ofRat
  split
  · rfl
  · split
    · rename_i h1 h2
      linarith
    · simpa [Dbl.ge] using hq

/-- The difference `a - b` of doubles with `a >= b`: NaN when both are the
same infinity, otherwise a value that compares `>=` with 0. -/
theorem Dbl.sub_of_ge (a b : Dbl) (h : a.ge b = true) :
    ((a = .pinf ∧ b = .pinf) ∨ (a = .ninf ∧ b = .ninf) → a.sub b = .nan) ∧
    (¬ (a = .pinf ∧ b = .pinf) → ¬ (a = .ninf ∧ b = .ninf) →
      (a.sub b).ge (.fin 0) = true) := by
  cases a <;> cases b <;> simp [Dbl.ge] at h <;>
    simp [Dbl.sub, Dbl.neg, Dbl.add, Dbl.ge]
  rename_i x y
  have := Dbl.ge_zero_ofRat (x + -y) (by linarith)
  exact this

/-- C20, counterexample: 100 units of P, priced 10^308, are added to a cart
and the customer's balance is plus infinity. The subtotal overflows to plus
infinity, the funds test `inf >= inf` passes, `checkout` succeeds, and the
debit `inf - inf` leaves NaN, which is not `>= 0`. -/
theorem ieee_checkout_success_balance_nan :
    Ieee.overflowCart.items = [⟨Ieee.itemP, 100⟩] ∧
    (Ieee.overflowCart.checkout ⟨"u", .pinf⟩ 0).outcome = .success .pinf (.fin 0) .pinf ∧
    (Ieee.overflowCart.checkout ⟨"u", .pinf⟩ 0).customer.balance = .nan ∧
    (Ieee.overflowCart.checkout ⟨"u", .pinf⟩ 0).customer.balance.ge (.fin 0) = false := by
  have hi : Ieee.overflowCart.items = [⟨Ieee.itemP, 100⟩] := by
    simp [Ieee.overflowCart, Ieee.ShoppingCart.addItem, Ieee.ShoppingCart.addShippingFee,
      Ieee.itemP]
  have hprice : (⟨Ieee.itemP, 100⟩ : Ieee.CartItem).getTotalPrice = .pinf := by
    simp only [Ieee.CartItem.getTotalPrice, Ieee.itemP, Dbl.mul, Dbl.ofRat, Dbl.overflowBound]
    norm_num
  have hloop : Ieee.checkoutLoop 0 [⟨Ieee.itemP, 100⟩] ⟨.fin 0, false, []⟩ =
      .ok ⟨.pinf, false, []⟩ := by
    have he : (⟨Ieee.itemP, 100⟩ : Ieee.CartItem).isExpired 0 = false := by
      simp [Ieee.CartItem.isExpired, Ieee.Product.isExpired, Ieee.itemP]
    have hq : ¬ ((100 : Int) > Ieee.itemP.stock) := by simp [Ieee.itemP]
    have hs : (⟨Ieee.itemP, 100⟩ : Ieee.CartItem).isShippable = false := by
      simp [Ieee.CartItem.isShippable, Ieee.itemP]
    simp [Ieee.checkoutLoop, he, hq, hs, hprice, Dbl.add]
  have hfee : Ieee.overflowCart.shippingFee = .fin 50 := by
    simp [Ieee.overflowCart, Ieee.ShoppingCart.addItem, Ieee.ShoppingCart.addShippingFee,
      Ieee.itemP]
  have hres : (Ieee.overflowCart.checkout ⟨"u", .pinf⟩ 0).outcome =
        .success .pinf (.fin 0) .pinf ∧
      (Ieee.overflowCart.checkout ⟨"u", .pinf⟩ 0).customer.balance = .nan := by
    simp [Ieee.ShoppingCart.checkout, hi, hloop, Ieee.Customer.availableBalance,
      Ieee.Customer.pay, Dbl.add, Dbl.sub, Dbl.neg, Dbl.ge]
  refine ⟨hi, hres.1, hres.2, ?_⟩
  rw [hres.2]
  rfl

/-- C20, amended: whenever `checkout` succeeds, the balance afterwards is
`>= 0`, also when the balance before is negative (or an infinity) and prices
are negative, infinite or NaN, unless the balance before and the total are
the same infinity, and then the balance afterwards is NaN. In particular the
balance afterwards is `>= 0` for every finite balance before. -/
theorem ieee_checkout_success_balance_nonneg (cart : Ieee.ShoppingCart)
    (customer : Ieee.Customer) (now : Int) (subtotal shippingCharged total : Dbl)
    (h : (cart.checkout customer now).outcome = .success subtotal shippingCharged total) :
    (¬ (customer.balance = .pinf ∧ total = .pinf) →
      ¬ (customer.balance = .ninf ∧ total = .ninf) →
      (cart.checkout customer now).customer.balance.ge (.fin 0) = true) ∧
    ((customer.balance = .pinf ∧ total = .pinf) ∨
      (customer.balance = .ninf ∧ total = .ninf) →
      (cart.checkout customer now).customer.balance = .nan) ∧
    (∀ b : ℚ, customer.balance = .fin b →
      (cart.checkout customer now).customer.balance.ge (.fin 0) = true) := by
  obtain ⟨hge, hbal⟩ :=
    ieee_checkout_success_inv cart customer now subtotal shippingCharged total h
  have hsub := Dbl.sub_of_ge customer.balance total hge
  rw [hbal]
  refine ⟨hsub.2, hsub.1, ?_⟩
  intro b hb
  apply hsub.2
  · rw [hb]
    simp
  · rw [hb]
    simp

/-- Witness for C20 amended: one unit of R (price -10) and a balance of -5;
the total is -10, the checkout succeeds and leaves a balance of 5. -/
theorem ieee_checkout_success_balance_nonneg_witness :
    (Ieee.refundCart.checkout ⟨"u", .fin (-5)⟩ 0).outcome =
      .success (.fin (-10)) (.fin 0) (.fin (-10)) ∧
    (Ieee.refundCart.checkout ⟨"u", .fin (-5)⟩ 0).customer.balance = .fin 5 ∧
    (Ieee.refundCart.checkout ⟨"u", .fin (-5)⟩ 0).customer.balance.ge (.fin 0) = true := by
  have hi : Ieee.refundCart.items = [⟨Ieee.itemR, 1⟩] := by
    simp [Ieee.refundCart, Ieee.ShoppingCart.addItem, Ieee.ShoppingCart.addShippingFee,
      Ieee.itemR]
  have hof : ∀ q : ℚ, -100 ≤ q → q ≤ 100 → Dbl.ofRat q = .fin q := by
    intro q h1 h2
    have hb : (100 : ℚ) < Dbl.overflowBound := by
      unfold Dbl.overflowBound
      norm_num
    unfold Dbl.ofRat
    rw [if_neg (by linarith), if_neg (by linarith)]
  have hprice : (⟨Ieee.itemR, 1⟩ : Ieee.CartItem).getTotalPrice = .fin (-10) := by
    simp only [Ieee.CartItem.getTotalPrice, Ieee.itemR, Dbl.mul]
    rw [hof _ (by norm_num) (by norm_num)]
    norm_num
  have hloop : Ieee.checkoutLoop 0 [⟨Ieee.itemR, 1⟩] ⟨.fin 0, false, []⟩ =
      .ok ⟨.fin (-10), false, []⟩ := by
    have he : (⟨Ieee.itemR, 1⟩ : Ieee.CartItem).isExpired 0 = false := by
      simp [Ieee.CartItem.isExpired, Ieee.Product.isExpired, Ieee.itemR]
    have hq : ¬ ((1 : Int) > Ieee.itemR.stock) := by simp [Ieee.itemR]
    have hs : (⟨Ieee.itemR, 1⟩ : Ieee.CartItem).isShippable = false := by
      simp [Ieee.CartItem.isShippable, Ieee.itemR]
    have hadd : (Dbl.fin 0).add (.fin (-10)) = .fin (-10) := by
      simp only [Dbl.add]
      rw [hof _ (by norm_num) (by norm_num)]
      norm_num
    simp [Ieee.checkoutLoop, he, hq, hs, hprice, hadd]
  have hadd0 : (Dbl.fin (-10)).add (.fin 0) = .fin (-10) := by
    simp only [Dbl.add]
    rw [hof _ (by norm_num) (by norm_num)]
    norm_num
  have hsub : (Dbl.fin (-5)).sub (.fin (-10)) = .fin 5 := by
    simp only [Dbl.sub, Dbl.neg, Dbl.add]
    rw [hof _ (by norm_num) (by norm_num)]
    norm_num
  have hge : (Dbl.fin (-5)).ge (.fin (-10)) = true := by
    simp only [Dbl.ge, decide_eq_true_eq]
    norm_num
  have hout : (Ieee.refundCart.checkout ⟨"u", .fin (-5)⟩ 0).outcome =
      .success (.fin (-10)) (.fin 0) (.fin (-10)) := by
    simp [Ieee.ShoppingCart.checkout, hi, hloop, Ieee.Customer.availableBalance, hadd0, hge]
  have hbal : (Ieee.refundCart.checkout ⟨"u", .fin (-5)⟩ 0).customer.balance = .fin 5 := by
    simp [Ieee.ShoppingCart.checkout, hi, hloop, Ieee.Customer.availableBalance,
      Ieee.Customer.pay, hadd0, hge, hsub]
  exact ⟨hout, hbal,
    (ieee_checkout_success_balance_nonneg Ieee.refundCart ⟨"u", .fin (-5)⟩ 0 _ _ _ hout).2.2
      (-5) rfl⟩

end Fawry
